import Mathlib

/-
  Shallow embedding of the TwitterScraper crawl/ingestion core:
  - src/program/database_manager.py  (Entity Store, Edge Store, Crawl State Store)
  - src/program/api_client.py        (Paginated Fetcher)
  - src/program/main.py              (Ingestion Orchestrator)

  Conventions of the embedding:
  - SQLite tables are lists of row structures; INSERT OR REPLACE is an upsert
    keyed on the primary-key column, INSERT OR IGNORE with a UNIQUE constraint
    is a guarded append.
  - Wall-clock timestamp columns (scraped_at, updated_at, last_attempt_at,
    followings_scraped_at) are abstracted away: they are set from datetime.now()
    or CURRENT_TIMESTAMP and carry no program logic.
  - HTTP and JSON are modelled by explicit outcome types; the network is an
    oracle supplied to each operation (a fixed sequence of responses).
  - Python truthiness tests on strings, lists and integers are modelled by
    explicit helper functions.
-/

/-- Python truthiness of an optional string (None and the empty string are falsy). -/
def pyTruthyStr : Option String → Bool
  | none => false
  | some s => !(s == "")

/-- Python `a or b` on two optional strings: returns `a` when truthy, else `b`. -/
def pyOrStr (a b : Option String) : Option String :=
  if pyTruthyStr a then a else b

/-- Python `a or b` where `a` is an optional int and `b` an int (None and 0 are falsy). -/
def pyOrNat (a : Option Nat) (b : Nat) : Nat :=
  match a with
  | none => b
  | some m => if m == 0 then b else m

/-- Python str.lower on the ASCII identifiers this program handles: the
per-character lowercase map.  (It is written as a structural map over the
character list so that proofs can evaluate it; the byte-position based
String.toLower of Lean core is extensionally the same function.) -/
def pyLower (s : String) : String := ⟨s.data.map Char.toLower⟩

/-- One entry of profile_bio.entities.url.urls in the user-info JSON. -/
structure UrlEntry where
  expanded_url : Option String
  url : Option String
deriving DecidableEq, Repr

/-- The profile_bio field of the user-info JSON, reduced to the part
database_manager.extract_website_link navigates: entities.url.urls when the
keys are present. -/
structure BioEntities where
  urlUrls : Option (List UrlEntry)
deriving DecidableEq, Repr

/-- A user record as delivered by the API (the dict shape read by
DatabaseManager.store_user); absent keys are `none` / the .get default. -/
structure UserData where
  userName : String
  name : Option String
  description : Option String
  location : Option String
  isBlueVerified : Bool
  verifiedType : Option String
  followers : Int
  following : Int
  pinnedTweetIds : List String
  profile_bio : Option BioEntities
  mediaCount : Int
  statusesCount : Int
  createdAt : Option String
  isAutomated : Bool
deriving DecidableEq, Repr

/-- A row of the `users` table (timestamp columns abstracted). -/
structure UserRow where
  username : String
  name : Option String
  url : Option String
  bio : Option String
  location : Option String
  is_verified : Bool
  verification_type : Option String
  followers : Int
  following : Int
  pinned_post_link : Option String
  media_count : Int
  status_count : Int
  created_at : Option String
  is_automated : Bool
deriving DecidableEq, Repr

/-- A row of the `user_processing_status` table (timestamp columns abstracted). -/
structure StatusRow where
  username : String
  followings_scraped : Bool
  followings_count : Nat
  pages_scraped : Nat
  max_pages_attempted : Nat
  is_complete : Bool
  error_message : Option String
deriving DecidableEq, Repr

/-- The persistent state: the three tables the crawl core reads and writes.
A row of `followings` is the (follower_username, following_username) pair;
its UNIQUE constraint is enforced by the guarded insert. -/
structure DB where
  users : List UserRow
  followings : List (String × String)
  status : List StatusRow
deriving DecidableEq, Repr

/-- The freshly initialised database (init_database creates empty tables). -/
def emptyDB : DB := ⟨[], [], []⟩

/-- INSERT OR REPLACE on a primary-key column: replace the matching row, else append. -/
def upsertUser (row : UserRow) (users : List UserRow) : List UserRow :=
  if users.any (·.username == row.username) then
    users.map (fun r => if r.username == row.username then row else r)
  else users ++ [row]

/-- INSERT OR REPLACE for the user_processing_status table. -/
def upsertStatus (row : StatusRow) (rows : List StatusRow) : List StatusRow :=
  if rows.any (·.username == row.username) then
    rows.map (fun r => if r.username == row.username then row else r)
  else rows ++ [row]

/-- DatabaseManager.user_exists. -/
def user_exists (username : String) (db : DB) : Bool :=
  db.users.any (·.username == pyLower username)

/-- DatabaseManager.users_exist_batch: one (input identifier, presence) pair per
input, presence computed by membership of the lowercased identifier in the set
of stored usernames matching the normalized input list.  The Python dict is
modelled as an association list; duplicate inputs produce entries with equal
values, so lookup order is immaterial. -/
def users_exist_batch (usernames : List String) (db : DB) : List (String × Bool) :=
  let normalized := usernames.map pyLower
  let existingUsers := (db.users.map (·.username)).filter (fun u => normalized.contains u)
  usernames.map (fun u => (u, existingUsers.contains (pyLower u)))

/-- Python dict .get(key, False) on the batch-existence result. -/
def lookupBool (m : List (String × Bool)) (k : String) : Bool :=
  (m.lookup k).getD false

/-- DatabaseManager.extract_website_link: first url entry's expanded_url or url. -/
def extract_website_link : Option BioEntities → Option String
  | some pb =>
    match pb.urlUrls with
    | some (u :: _) => pyOrStr u.expanded_url u.url
    | _ => none
  | none => none

/-- DatabaseManager.extract_pinned_post_link: link built from the first pinned id. -/
def extract_pinned_post_link : List String → Option String
  | [] => none
  | tid :: _ => some ("https://twitter.com/i/web/status/" ++ tid)

/-- The users-table row store_user builds from one API user record. -/
def mkUserRow (u : UserData) : UserRow :=
  { username := pyLower u.userName
    name := u.name
    url := extract_website_link u.profile_bio
    bio := u.description
    location := u.location
    is_verified := u.isBlueVerified
    verification_type := u.verifiedType
    followers := u.followers
    following := u.following
    pinned_post_link := extract_pinned_post_link u.pinnedTweetIds
    media_count := u.mediaCount
    status_count := u.statusesCount
    created_at := u.createdAt
    is_automated := u.isAutomated }

/-- DatabaseManager.store_user: INSERT OR REPLACE keyed on the lowercased userName. -/
def store_user (u : UserData) (db : DB) : DB :=
  { db with users := upsertUser (mkUserRow u) db.users }

/-- DatabaseManager.store_following_relationship: INSERT OR IGNORE of the
lowercased (follower, followee) pair; the returned Bool is rowcount > 0. -/
def store_following_relationship (follower followee : String) (db : DB) : DB × Bool :=
  let e := (pyLower follower, pyLower followee)
  if e ∈ db.followings then (db, false)
  else ({ db with followings := db.followings ++ [e] }, true)

/-- The per-target loop body of DatabaseManager.store_followings_batch_with_check:
targets with a falsy userName are skipped entirely; the existence map (computed
once, before the loop, from the pre-batch store) decides whether the profile is
stored; the edge is inserted for every processed target. -/
def batch_loop (follower : String) (exMap : List (String × Bool)) :
    List UserData → DB → Nat → Nat → Nat → DB × Nat × Nat × Nat
  | [], db, nu, eu, rel => (db, nu, eu, rel)
  | t :: rest, db, nu, eu, rel =>
    if t.userName == "" then batch_loop follower exMap rest db nu eu rel
    else
      let fl := pyLower t.userName
      let step :=
        if lookupBool exMap t.userName then (db, nu, eu + 1)
        else (store_user t db, nu + 1, eu)
      let ins := store_following_relationship follower fl step.1
      batch_loop follower exMap rest ins.1 step.2.1 step.2.2
        (if ins.2 then rel + 1 else rel)

/-- DatabaseManager.store_followings_batch_with_check.
Returns (db, new_users_stored, existing_users_found, relationships_stored). -/
def store_followings_batch_with_check (follower : String) (followingsData : List UserData)
    (db : DB) : DB × Nat × Nat × Nat :=
  if followingsData.isEmpty then (db, 0, 0, 0)
  else
    let followingUsernames := (followingsData.map (·.userName)).filter (fun s => !(s == ""))
    let exMap := users_exist_batch followingUsernames db
    batch_loop follower exMap followingsData db 0 0 0

/-- The crawl-state row mark_followings_scraped writes (followings_scraped is
hard-coded to true in the VALUES list). -/
def mkStatusRow (username : String) (followingsCount pagesScraped maxPages : Nat)
    (isComplete : Bool) (errorMessage : Option String) : StatusRow :=
  { username := pyLower username
    followings_scraped := true
    followings_count := followingsCount
    pages_scraped := pagesScraped
    max_pages_attempted := maxPages
    is_complete := isComplete
    error_message := errorMessage }

/-- DatabaseManager.mark_followings_scraped: INSERT OR REPLACE of the crawl-state
row; the followings_scraped column is hard-coded to true. -/
def mark_followings_scraped (username : String) (followingsCount pagesScraped maxPages : Nat)
    (isComplete : Bool) (errorMessage : Option String) (db : DB) : DB :=
  let row := mkStatusRow username followingsCount pagesScraped maxPages isComplete errorMessage
  { db with status := upsertStatus row db.status }

/-- DatabaseManager.is_followings_scraped: a row exists with this username and
followings_scraped = 1 (is_complete is NOT consulted). -/
def is_followings_scraped (username : String) (db : DB) : Bool :=
  db.status.any (fun r => r.username == pyLower username && r.followings_scraped)

/-- DatabaseManager.get_processing_status. -/
def get_processing_status (username : String) (db : DB) : Option StatusRow :=
  db.status.find? (·.username == pyLower username)

/-- DatabaseManager.reset_processing_status: DELETE the crawl-state row. -/
def reset_processing_status (username : String) (db : DB) : DB :=
  { db with status := db.status.filter (fun r => !(r.username == pyLower username)) }

/-
  src/program/api_client.py
-/

/-- Outcome of parsing the body of an HTTP response. -/
inductive ParseOutcome (β : Type) where
  | parseError
  | parsed (val : β)
deriving DecidableEq, Repr

/-- Outcome of one HTTP request: a transport-level error (requests.RequestException)
or a status code together with the body-parsing outcome. -/
inductive HttpResult (β : Type) where
  | netError
  | httpStatus (code : Nat) (body : ParseOutcome β)
deriving DecidableEq, Repr

/-- APIClient._make_request: transport errors, non-200 statuses and JSON decode
errors all return None; only a 200 response with a parseable body yields data. -/
def make_request {β : Type} : HttpResult β → Option β
  | .netError => none
  | .httpStatus code body =>
    if code == 200 then
      match body with
      | .parseError => none
      | .parsed v => some v
    else none

/-- Body of the user-info endpoint response (data may be absent). -/
structure InfoBody where
  status : String
  data : Option UserData
deriving DecidableEq, Repr

/-- Body of the followings endpoint response; absent keys take the .get
defaults used by the client ([], False, None). -/
structure FollowingsBody where
  status : String
  followings : List UserData
  has_next_page : Bool
  next_cursor : Option String
deriving DecidableEq, Repr

/-- The (followings, has_next_page, next_cursor) triple returned by
APIClient.get_user_followings. -/
structure FPage where
  followings : List UserData
  has_next_page : Bool
  next_cursor : Option String
deriving DecidableEq, Repr

/-- APIClient.get_user_data. -/
def get_user_data (r : HttpResult InfoBody) : Option UserData :=
  match make_request r with
  | some b => if b.status == "success" then b.data else none
  | none => none

/-- APIClient.get_user_followings: any failed or non-success call yields
([], False, None). -/
def get_user_followings (r : HttpResult FollowingsBody) : FPage :=
  match make_request r with
  | some b =>
    if b.status == "success" then ⟨b.followings, b.has_next_page, b.next_cursor⟩
    else ⟨[], false, none⟩
  | none => ⟨[], false, none⟩

/-- The page cap test `max_pages and page_count >= max_pages`: None and 0 are
falsy, so they disable the cap. -/
def capReached (maxPages : Option Nat) (pageCount : Nat) : Bool :=
  match maxPages with
  | none => false
  | some m => !(m == 0) && decide (m ≤ pageCount)

/-- The while-loop of APIClient.get_all_user_followings, indexed by the number
of requests already issued (the cursor is determined by the response history,
so the response sequence is a function of the request index).  The fuel
argument bounds the number of iterations the model unfolds: `none` means the
loop was still running after `fuel` iterations.  On termination it returns the
accumulated records and the number of requests issued. -/
def get_all_loop (api : Nat → FPage) (maxPages : Option Nat) :
    Nat → Nat → List UserData → Option (List UserData × Nat)
  | 0, _, _ => none
  | fuel + 1, pageCount, acc =>
    if capReached maxPages pageCount then some (acc, pageCount)
    else
      let p := api pageCount
      if p.followings.isEmpty then some (acc, pageCount + 1)
      else
        let acc2 := acc ++ p.followings
        if !p.has_next_page || !pyTruthyStr p.next_cursor then some (acc2, pageCount + 1)
        else get_all_loop api maxPages fuel (pageCount + 1) acc2

/-- APIClient.get_all_user_followings. -/
def get_all_user_followings (api : Nat → FPage) (maxPages : Option Nat) (fuel : Nat) :
    Option (List UserData × Nat) :=
  get_all_loop api maxPages fuel 0 []

/-- APIClient.page_size as set in __init__. -/
def page_size_default : Nat := 200

/-
  src/program/main.py
-/

/-- Config.MAX_PAGES_PER_USER from src/program/config.py. -/
def MAX_PAGES_PER_USER : Nat := 10

/-- The network behaviour of one entity's followings phase: either an
exception is raised somewhere inside the try block of steps 2 to 6 (modelled
as an oracle event carrying str(e)), or the paginated endpoint answers every
request from a fixed response sequence. -/
inductive FollowingsPhase where
  | raises (msg : String)
  | responds (pages : Nat → HttpResult FollowingsBody)

/-- The API oracle for one collection call: the user-info response and the
followings-phase behaviour. -/
structure UserOracle where
  userInfo : HttpResult InfoBody
  followingsPhase : FollowingsPhase

/-- The dict returned by SocialDataCollector.collect_user_and_followings. -/
inductive CollectResult where
  | alreadyProcessed (followingsCount : Nat)
  | errorResult (msg : String)
  | zeroFollowings
  | stats (newFollowings existingFollowings relationships totalFetched pagesScraped : Nat)
deriving DecidableEq, Repr

/-- SocialDataCollector.collect_user_and_followings.  pageSize is the client
attribute page_size (200 by default); fuel bounds the pagination loop, and
`none` means that loop was still running. -/
def collect_user_and_followings (pageSize : Nat) (o : UserOracle) (username : String)
    (maxPagesArg : Option Nat) (forceReprocess : Bool) (fuel : Nat) (db : DB) :
    Option (DB × CollectResult) :=
  let maxPages := maxPagesArg.getD MAX_PAGES_PER_USER
  if !forceReprocess && is_followings_scraped username db then
    some (db, .alreadyProcessed
      (((get_processing_status username db).map (·.followings_count)).getD 0))
  else
    match get_user_data o.userInfo with
    | none =>
      some (mark_followings_scraped username 0 0 maxPages false
              (some ("Failed to retrieve user data for " ++ username)) db,
            .errorResult "Failed to retrieve user data")
    | some userData =>
      let db1 := store_user userData db
      match o.followingsPhase with
      | .raises msg =>
        some (mark_followings_scraped username 0 0 maxPages false
                (some ("Error during followings collection: " ++ msg)) db1,
              .errorResult ("Error during followings collection: " ++ msg))
      | .responds pages =>
        match get_all_user_followings (fun i => get_user_followings (pages i))
                (some maxPages) fuel with
        | none => none
        | some fetched =>
          let followingsData := fetched.1
          if followingsData.isEmpty then
            some (mark_followings_scraped username 0 0 maxPages true none db1,
                  .zeroFollowings)
          else
            let batch := store_followings_batch_with_check username followingsData db1
            let pagesScraped := (followingsData.length + pageSize - 1) / pageSize
            some (mark_followings_scraped username followingsData.length pagesScraped
                    maxPages true none batch.1,
                  .stats batch.2.1 batch.2.2.1 batch.2.2.2 followingsData.length
                    pagesScraped)

/-- How one entry of a batch run behaves: the per-entity call either runs with
its oracle, or an exception escapes it and is caught by the batch loop of
collect_multiple_users. -/
inductive CollectBehavior where
  | runs (o : UserOracle)
  | escapes (msg : String)

/-- The for-loop of SocialDataCollector.collect_multiple_users; the results
dict is modelled as an association list in processing order. -/
def collect_multiple_loop (pageSize : Nat) (beh : String → CollectBehavior)
    (maxPagesArg : Option Nat) (force : Bool) (fuel : Nat) :
    List String → DB → List (String × CollectResult) →
    Option (DB × List (String × CollectResult))
  | [], db, acc => some (db, acc)
  | u :: rest, db, acc =>
    match beh u with
    | .escapes msg =>
      let db2 := mark_followings_scraped u 0 0 (pyOrNat maxPagesArg MAX_PAGES_PER_USER)
        false (some msg) db
      collect_multiple_loop pageSize beh maxPagesArg force fuel rest db2
        (acc ++ [(u, .errorResult msg)])
    | .runs o =>
      match collect_user_and_followings pageSize o u maxPagesArg force fuel db with
      | none => none
      | some r =>
        collect_multiple_loop pageSize beh maxPagesArg force fuel rest r.1
          (acc ++ [(u, r.2)])

/-- SocialDataCollector.collect_multiple_users. -/
def collect_multiple_users (pageSize : Nat) (beh : String → CollectBehavior)
    (usernames : List String) (maxPagesArg : Option Nat) (force : Bool) (fuel : Nat)
    (db : DB) : Option (DB × List (String × CollectResult)) :=
  collect_multiple_loop pageSize beh maxPagesArg force fuel usernames db []

/-
  Shared lemmas about the embedded operations.
-/

/-- Concatenation of the followings of the k pages starting at request index pc. -/
def pagesJoin (api : Nat → FPage) : Nat → Nat → List UserData
  | _, 0 => []
  | pc, k + 1 => (api pc).followings ++ pagesJoin api (pc + 1) k

/-- A page that lets the pagination loop continue: nonempty records,
has_next_page set, and a truthy cursor. -/
def goodPage (p : FPage) : Prop :=
  p.followings ≠ [] ∧ p.has_next_page = true ∧ pyTruthyStr p.next_cursor = true

theorem pagesJoin_snoc (api : Nat → FPage) :
    ∀ (k pc : Nat), pagesJoin api pc (k + 1) = pagesJoin api pc k ++ (api (pc + k)).followings := by
  intro k
  induction k with
  | zero => intro pc; simp [pagesJoin]
  | succ k ih =>
    intro pc
    rw [show k + 1 + 1 = (k + 1) + 1 from rfl]
    rw [pagesJoin, ih (pc + 1), pagesJoin]
    simp [List.append_assoc]
    rw [show pc + 1 + k = pc + (k + 1) by omega]

theorem pagesJoin_length (api : Nat → FPage) (ps : Nat) :
    ∀ (k pc : Nat), (∀ i, i < k → ((api (pc + i)).followings).length = ps) →
      (pagesJoin api pc k).length = k * ps := by
  intro k
  induction k with
  | zero => intro pc _; simp [pagesJoin]
  | succ k ih =>
    intro pc h
    rw [pagesJoin, List.length_append]
    have h0 : ((api pc).followings).length = ps := by
      have := h 0 (by omega); simpa using this
    have hrest : (pagesJoin api (pc + 1) k).length = k * ps := by
      apply ih
      intro i hi
      have := h (i + 1) (by omega)
      rw [show pc + 1 + i = pc + (i + 1) by omega]
      exact this
    rw [h0, hrest]; ring

/-- Running the loop across k good pages accumulates their records. -/
theorem get_all_loop_append (api : Nat → FPage) (mp : Option Nat) :
    ∀ (k fuel pc : Nat) (acc : List UserData),
      (∀ i, i < k → goodPage (api (pc + i)) ∧ capReached mp (pc + i) = false) →
      get_all_loop api mp (fuel + k) pc acc =
        get_all_loop api mp fuel (pc + k) (acc ++ pagesJoin api pc k) := by
  intro k
  induction k with
  | zero => intro fuel pc acc _; simp [pagesJoin]
  | succ k ih =>
    intro fuel pc acc h
    obtain ⟨⟨hne, hnext, hcur⟩, hcap⟩ := h 0 (by omega)
    rw [show fuel + (k + 1) = (fuel + k) + 1 by omega]
    rw [get_all_loop]
    simp only [Nat.add_zero] at hcap hne hnext hcur
    rw [hcap]
    simp only [List.isEmpty_eq_true]
    rw [if_neg hne, hnext, hcur]
    simp only [Bool.not_true, Bool.false_or, Bool.or_self, if_neg (by simp : ¬false = true)]
    have hrest : ∀ i, i < k → goodPage (api (pc + 1 + i)) ∧ capReached mp (pc + 1 + i) = false := by
      intro i hi
      have := h (i + 1) (by omega)
      rwa [show pc + (i + 1) = pc + 1 + i by omega] at this
    rw [ih fuel (pc + 1) (acc ++ (api pc).followings) hrest]
    rw [pagesJoin]
    rw [show pc + 1 + k = pc + (k + 1) by omega, List.append_assoc]

/-- With the cap disabled and every page good, the loop never terminates:
whatever the fuel, it is still running. -/
theorem get_all_loop_diverges (api : Nat → FPage) (mp : Option Nat)
    (hcap : ∀ pc, capReached mp pc = false) (hgood : ∀ i, goodPage (api i)) :
    ∀ (fuel pc : Nat) (acc : List UserData), get_all_loop api mp fuel pc acc = none := by
  intro fuel
  induction fuel with
  | zero => intro pc acc; rfl
  | succ fuel ih =>
    intro pc acc
    obtain ⟨hne, hnext, hcur⟩ := hgood pc
    rw [get_all_loop, hcap pc]
    simp only [List.isEmpty_eq_true]
    rw [if_neg hne, hnext, hcur]
    simpa using ih (pc + 1) (acc ++ (api pc).followings)

/-- C4: the paginated fetch loop checks the page cap, then the empty page,
then has_next_page or a missing cursor; if every page is full with
has_next_page=true and a cursor, the fetch can stop only through the page cap
(no cap set, or a cap of 0, means it never terminates; a cap of m makes it
issue exactly m requests and return the m pages); a reachable page with
has_next_page=false terminates the fetch right after appending its records. -/
theorem claim_C4_pagination_stop_conditions (api : Nat → FPage) (ps m k fuel : Nat)
    (mp : Option Nat) :
    ((∀ i, goodPage (api i)) →
      get_all_user_followings api none fuel = none
      ∧ get_all_user_followings api (some 0) fuel = none
      ∧ (0 < m → m < fuel →
          get_all_user_followings api (some m) fuel = some (pagesJoin api 0 m, m)
          ∧ ((∀ i, ((api i).followings).length = ps) →
              (pagesJoin api 0 m).length = m * ps)))
    ∧ ((∀ i, i < k → goodPage (api i)) → (∀ i, i ≤ k → capReached mp i = false) →
        (api k).has_next_page = false → (api k).followings ≠ [] → k + 1 ≤ fuel →
        get_all_user_followings api mp fuel = some (pagesJoin api 0 (k + 1), k + 1)) := by
  constructor
  · intro hgood
    refine ⟨?_, ?_, ?_⟩
    · exact get_all_loop_diverges api none (fun _ => rfl) hgood fuel 0 []
    · exact get_all_loop_diverges api (some 0) (fun _ => by simp [capReached]) hgood fuel 0 []
    · intro hm hfuel
      constructor
      · obtain ⟨f, rfl⟩ : ∃ f, fuel = (f + 1) + m := ⟨fuel - m - 1, by omega⟩
        rw [get_all_user_followings,
          get_all_loop_append api (some m) m (f + 1) 0 []
            (fun i hi => ⟨by simpa using hgood i, by simp [capReached]; omega⟩)]
        rw [get_all_loop]
        have hc : capReached (some m) (0 + m) = true := by simp [capReached]; omega
        rw [hc]
        simp
      · intro hlen
        exact pagesJoin_length api ps m 0 (fun i _ => by simpa using hlen i)
  · intro hgood hcap hlast hne hfuel
    obtain ⟨f, rfl⟩ : ∃ f, fuel = (f + 1) + k := ⟨fuel - k - 1, by omega⟩
    rw [get_all_user_followings,
      get_all_loop_append api mp k (f + 1) 0 []
        (fun i hi => ⟨by simpa using hgood i hi, by simpa using hcap i (by omega)⟩)]
    rw [get_all_loop]
    rw [show (0 + k) = k by omega, hcap k (by omega)]
    simp only [List.isEmpty_eq_true]
    rw [if_neg hne, hlast]
    rw [pagesJoin_snoc]
    simp

/-- A constant all-good page sequence for exercising the pagination theorems. -/
def sampleUserD : UserData :=
  { userName := "T", name := none, description := none, location := none,
    isBlueVerified := false, verifiedType := none, followers := 0, following := 0,
    pinnedTweetIds := [], profile_bio := none, mediaCount := 0, statusesCount := 0,
    createdAt := none, isAutomated := false }

def c4apiFull : Nat → FPage := fun _ => ⟨[sampleUserD], true, some "cur"⟩

def c4apiEnd : Nat → FPage := fun i =>
  if i == 0 then ⟨[sampleUserD], true, some "cur"⟩ else ⟨[sampleUserD], false, none⟩

theorem claim_C4_witness :
    (get_all_user_followings c4apiFull none 5 = none
     ∧ get_all_user_followings c4apiFull (some 0) 5 = none
     ∧ get_all_user_followings c4apiFull (some 2) 5 = some ([sampleUserD, sampleUserD], 2))
    ∧ get_all_user_followings c4apiEnd none 5 = some ([sampleUserD, sampleUserD], 2) := by
  have hgood : ∀ i, goodPage (c4apiFull i) := by
    intro i
    exact ⟨by simp [c4apiFull], rfl, rfl⟩
  have h1 := (claim_C4_pagination_stop_conditions c4apiFull 1 2 1 5 none).1 hgood
  have h2 := (claim_C4_pagination_stop_conditions c4apiEnd 1 2 1 5 none).2
    (by intro i hi
        have : i = 0 := by omega
        subst this
        exact ⟨by simp [c4apiEnd], rfl, rfl⟩)
    (fun i _ => rfl) (by simp [c4apiEnd]) (by simp [c4apiEnd]) (by omega)
  refine ⟨⟨h1.1, h1.2.1, ?_⟩, ?_⟩
  · exact ((h1.2.2 (by omega) (by omega)).1).trans (by decide)
  · exact h2.trans (by decide)

/-- C5: every failed single-page fetch call — transport error, non-200 HTTP
status, unparseable body, or a body whose status field is not success —
returns ([], false, none) (the embedding is total, so no exception escapes),
and a page with an empty record list ends the pagination loop as if the data
were exhausted, returning the records accumulated so far. -/
theorem claim_C5_fetch_failure_is_empty_page (code : Nat)
    (body : ParseOutcome FollowingsBody) (b : FollowingsBody)
    (api : Nat → HttpResult FollowingsBody) (mp : Option Nat) (k fuel : Nat) :
    (code ≠ 200 → get_user_followings (.httpStatus code body) = ⟨[], false, none⟩)
    ∧ get_user_followings (.httpStatus 200 .parseError) = ⟨[], false, none⟩
    ∧ (b.status ≠ "success" →
        get_user_followings (.httpStatus 200 (.parsed b)) = ⟨[], false, none⟩)
    ∧ get_user_followings .netError = ⟨[], false, none⟩
    ∧ ((∀ i, i < k → goodPage (get_user_followings (api i))) →
        (∀ i, i ≤ k → capReached mp i = false) →
        (get_user_followings (api k)).followings = [] →
        k + 1 ≤ fuel →
        get_all_user_followings (fun i => get_user_followings (api i)) mp fuel =
          some (pagesJoin (fun i => get_user_followings (api i)) 0 k, k + 1)) := by
  refine ⟨?_, rfl, ?_, rfl, ?_⟩
  · intro hne
    have hb : (code == 200) = false := by simpa using hne
    simp [get_user_followings, make_request, hb]
  · intro hs
    have hb : (b.status == "success") = false := by simpa using hs
    simp [get_user_followings, make_request, hb]
  · intro hgood hcap hempty hfuel
    obtain ⟨f, rfl⟩ : ∃ f, fuel = (f + 1) + k := ⟨fuel - k - 1, by omega⟩
    rw [get_all_user_followings,
      get_all_loop_append (fun i => get_user_followings (api i)) mp k (f + 1) 0 []
        (fun i hi => ⟨by simpa using hgood i hi, by simpa using hcap i (by omega)⟩)]
    rw [get_all_loop]
    rw [show (0 + k) = k by omega, hcap k (by omega)]
    simp only [List.isEmpty_eq_true]
    rw [if_pos hempty]
    simp

def c5apiFailAfterOne : Nat → HttpResult FollowingsBody := fun i =>
  if i == 0 then .httpStatus 200 (.parsed ⟨"success", [sampleUserD], true, some "cur"⟩)
  else .httpStatus 500 .parseError

theorem claim_C5_witness :
    get_user_followings (.httpStatus 500 (.parseError : ParseOutcome FollowingsBody)) =
      ⟨[], false, none⟩
    ∧ get_user_followings (.httpStatus 200 (.parsed
        (⟨"error", [sampleUserD], true, some "c"⟩ : FollowingsBody))) = ⟨[], false, none⟩
    ∧ get_all_user_followings (fun i => get_user_followings (c5apiFailAfterOne i)) none 5 =
        some ([sampleUserD], 2) := by
  have h := claim_C5_fetch_failure_is_empty_page 500
    (.parseError : ParseOutcome FollowingsBody)
    (⟨"error", [sampleUserD], true, some "c"⟩ : FollowingsBody)
    c5apiFailAfterOne none 1 5
  refine ⟨h.1 (by omega), h.2.2.1 (by decide), ?_⟩
  have h5 := h.2.2.2.2
    (by intro i hi
        have : i = 0 := by omega
        subst this
        exact ⟨by simp [c5apiFailAfterOne, get_user_followings, make_request], rfl, rfl⟩)
    (fun i _ => rfl)
    (by simp [c5apiFailAfterOne, get_user_followings, make_request])
    (by omega)
  exact h5.trans (by decide)

theorem lookup_map_pair {α β : Type} [BEq α] [LawfulBEq α] (f : α → β) :
    ∀ (l : List α) (u : α), u ∈ l → (l.map (fun v => (v, f v))).lookup u = some (f u) := by
  intro l
  induction l with
  | nil => intro u hu; cases hu
  | cons v rest ih =>
    intro u hu
    simp only [List.map_cons, List.lookup]
    by_cases h : u = v
    · subst h; simp
    · have hb : (u == v) = false := by simpa using h
      rw [hb]
      exact ih u (by cases hu with
        | head => exact absurd rfl h
        | tail _ hm => exact hm)

/-- The value users_exist_batch associates to each input identifier is exactly
membership of its lowercase form among the stored usernames. -/
theorem users_exist_batch_lookup (ids : List String) (db : DB) (u : String)
    (hu : u ∈ ids) :
    (users_exist_batch ids db).lookup u =
      some ((db.users.map (fun r => r.username)).contains (pyLower u)) := by
  unfold users_exist_batch
  rw [lookup_map_pair _ ids u hu]
  congr 1
  have hpred : ((ids.map pyLower).contains (pyLower u)) = true := by
    simp only [List.contains, List.elem_eq_mem, decide_eq_true_eq]
    exact List.mem_map_of_mem _ hu
  simp only [List.contains, List.elem_eq_mem, decide_eq_decide, List.mem_filter]
  constructor
  · rintro ⟨hm, _⟩; exact hm
  · intro hm
    refine ⟨hm, ?_⟩
    simpa only [List.contains, List.elem_eq_mem] using hpred

/-- C3: the batch existence check answers every input identifier — stored or
never stored — with exactly the presence of its lowercase normalization among
the usernames of the Entity Store. -/
theorem claim_C3_exists_batch_complete (ids : List String) (db : DB) (u : String)
    (hu : u ∈ ids) :
    (users_exist_batch ids db).lookup u =
      some (decide (∃ r ∈ db.users, r.username = pyLower u)) := by
  rw [users_exist_batch_lookup ids db u hu]
  congr 1
  simp only [List.contains, List.elem_eq_mem, decide_eq_decide, List.mem_map]

def c3db : DB :=
  { users := [mkUserRow sampleUserD, mkUserRow { sampleUserD with userName := "Alice" }],
    followings := [], status := [] }

theorem claim_C3_witness :
    (users_exist_batch ["ALICE", "ghost"] c3db).lookup "ALICE" = some true
    ∧ (users_exist_batch ["ALICE", "ghost"] c3db).lookup "ghost" = some false := by
  constructor
  · exact (claim_C3_exists_batch_complete ["ALICE", "ghost"] c3db "ALICE"
      (by decide)).trans (by decide)
  · exact (claim_C3_exists_batch_complete ["ALICE", "ghost"] c3db "ghost"
      (by decide)).trans (by decide)

/-
  Status-table lemmas and the reachable-state invariant.
-/

theorem store_following_relationship_status (f g : String) (db : DB) :
    ((store_following_relationship f g db).1).status = db.status := by
  unfold store_following_relationship
  by_cases h : (pyLower f, pyLower g) ∈ db.followings <;> simp [h]

theorem store_following_relationship_users (f g : String) (db : DB) :
    ((store_following_relationship f g db).1).users = db.users := by
  unfold store_following_relationship
  by_cases h : (pyLower f, pyLower g) ∈ db.followings <;> simp [h]

theorem batch_loop_status (follower : String) (exMap : List (String × Bool)) :
    ∀ (data : List UserData) (db : DB) (nu eu rel : Nat),
      ((batch_loop follower exMap data db nu eu rel).1).status = db.status := by
  intro data
  induction data with
  | nil => intro db nu eu rel; rfl
  | cons t rest ih =>
    intro db nu eu rel
    rw [batch_loop]
    by_cases h : (t.userName == "") = true
    · rw [if_pos h]; exact ih db nu eu rel
    · rw [if_neg h]
      by_cases hex : lookupBool exMap t.userName = true
      · simp only [hex, if_pos]
        rw [ih]
        exact store_following_relationship_status _ _ _
      · simp only [Bool.not_eq_true] at hex
        simp only [hex, Bool.false_eq_true, if_neg, if_false]
        rw [ih]
        rw [store_following_relationship_status]
        rfl

theorem store_followings_batch_status (f : String) (data : List UserData) (db : DB) :
    ((store_followings_batch_with_check f data db).1).status = db.status := by
  unfold store_followings_batch_with_check
  by_cases h : data.isEmpty <;> simp [h, batch_loop_status]

theorem mem_upsertStatus (r row : StatusRow) (rows : List StatusRow)
    (h : r ∈ upsertStatus row rows) : r = row ∨ r ∈ rows := by
  unfold upsertStatus at h
  by_cases hany : rows.any (·.username == row.username)
  · rw [if_pos hany] at h
    obtain ⟨r0, hr0, heq⟩ := List.mem_map.1 h
    by_cases hm : (r0.username == row.username) = true
    · rw [if_pos hm] at heq; exact Or.inl heq.symm
    · rw [if_neg hm] at heq; exact Or.inr (heq ▸ hr0)
  · rw [if_neg hany] at h
    rcases List.mem_append.1 h with h1 | h1
    · exact Or.inr h1
    · simp at h1; exact Or.inl h1

theorem mem_mark_status (r : StatusRow) (u : String) (c p m : Nat) (ic : Bool)
    (em : Option String) (db : DB)
    (h : r ∈ (mark_followings_scraped u c p m ic em db).status) :
    r = mkStatusRow u c p m ic em ∨ r ∈ db.status :=
  mem_upsertStatus r _ db.status h

/-- Any status row present after a collect call either was present before or
carries followings_scraped = true. -/
theorem collect_status_scraped (ps : Nat) (o : UserOracle) (u : String)
    (mp : Option Nat) (force : Bool) (fuel : Nat) (db db2 : DB) (res : CollectResult)
    (h : collect_user_and_followings ps o u mp force fuel db = some (db2, res)) :
    ∀ r ∈ db2.status, r.followings_scraped = true ∨ r ∈ db.status := by
  intro r hr
  unfold collect_user_and_followings at h
  by_cases hsc : (!force && is_followings_scraped u db) = true
  · rw [if_pos hsc] at h
    obtain ⟨rfl, -⟩ : db = db2 ∧ _ := by
      have := Option.some.inj h
      exact ⟨congrArg Prod.fst this, congrArg Prod.snd this⟩
    exact Or.inr hr
  · rw [if_neg hsc] at h
    cases hud : get_user_data o.userInfo with
    | none =>
      rw [hud] at h
      have hdb : db2 = mark_followings_scraped u 0 0 (mp.getD MAX_PAGES_PER_USER) false
          (some ("Failed to retrieve user data for " ++ u)) db :=
        (congrArg Prod.fst (Option.some.inj h)).symm
      subst hdb
      rcases mem_mark_status r _ _ _ _ _ _ _ hr with hrow | hold
      · exact Or.inl (by rw [hrow]; rfl)
      · exact Or.inr hold
    | some ud =>
      rw [hud] at h
      cases hph : o.followingsPhase with
      | raises msg =>
        rw [hph] at h
        simp only at h
        have hdb : db2 = mark_followings_scraped u 0 0 (mp.getD MAX_PAGES_PER_USER) false
            (some ("Error during followings collection: " ++ msg)) (store_user ud db) :=
          (congrArg Prod.fst (Option.some.inj h)).symm
        subst hdb
        rcases mem_mark_status r _ _ _ _ _ _ _ hr with hrow | hold
        · exact Or.inl (by rw [hrow]; rfl)
        · exact Or.inr (by simpa [store_user] using hold)
      | responds pages =>
        rw [hph] at h
        simp only at h
        cases hloop : get_all_user_followings (fun i => get_user_followings (pages i))
            (some (mp.getD MAX_PAGES_PER_USER)) fuel with
        | none => rw [hloop] at h; cases h
        | some fetched =>
          rw [hloop] at h
          simp only at h
          by_cases hemp : fetched.1.isEmpty = true
          · rw [if_pos hemp] at h
            have hdb : db2 = mark_followings_scraped u 0 0 (mp.getD MAX_PAGES_PER_USER)
                true none (store_user ud db) :=
              (congrArg Prod.fst (Option.some.inj h)).symm
            subst hdb
            rcases mem_mark_status r _ _ _ _ _ _ _ hr with hrow | hold
            · exact Or.inl (by rw [hrow]; rfl)
            · exact Or.inr (by simpa [store_user] using hold)
          · rw [if_neg hemp] at h
            have hdb : db2 = mark_followings_scraped u fetched.1.length
                ((fetched.1.length + ps - 1) / ps) (mp.getD MAX_PAGES_PER_USER) true none
                (store_followings_batch_with_check u fetched.1 (store_user ud db)).1 :=
              (congrArg Prod.fst (Option.some.inj h)).symm
            subst hdb
            rcases mem_mark_status r _ _ _ _ _ _ _ hr with hrow | hold
            · exact Or.inl (by rw [hrow]; rfl)
            · right
              rw [store_followings_batch_status] at hold
              simpa [store_user] using hold

theorem collect_multiple_loop_status_scraped (ps : Nat) (beh : String → CollectBehavior)
    (mp : Option Nat) (force : Bool) (fuel : Nat) :
    ∀ (us : List String) (db db2 : DB) (acc res : List (String × CollectResult)),
      collect_multiple_loop ps beh mp force fuel us db acc = some (db2, res) →
      ∀ r ∈ db2.status, r.followings_scraped = true ∨ r ∈ db.status := by
  intro us
  induction us with
  | nil =>
    intro db db2 acc res h r hr
    have : db = db2 := congrArg Prod.fst (Option.some.inj h)
    exact Or.inr (this ▸ hr)
  | cons u rest ih =>
    intro db db2 acc res h r hr
    rw [collect_multiple_loop] at h
    cases hb : beh u with
    | escapes msg =>
      rw [hb] at h
      simp only at h
      rcases ih _ db2 _ res h r hr with htrue | hmem
      · exact Or.inl htrue
      · rcases mem_mark_status r _ _ _ _ _ _ _ hmem with hrow | hold
        · exact Or.inl (by rw [hrow]; rfl)
        · exact Or.inr hold
    | runs o =>
      rw [hb] at h
      simp only at h
      cases hc : collect_user_and_followings ps o u mp force fuel db with
      | none => rw [hc] at h; cases h
      | some p =>
        rw [hc] at h
        simp only at h
        rcases ih _ db2 _ res h r hr with htrue | hmem
        · exact Or.inl htrue
        · rcases collect_status_scraped ps o u mp force fuel db p.1 p.2
            (by rw [hc]) r hmem with htrue | hold
          · exact Or.inl htrue
          · exact Or.inr hold

/-- The states reachable from the freshly initialised database through the
operations the program performs on it. -/
inductive DBReachable : DB → Prop where
  | init : DBReachable emptyDB
  | step_store_user (u : UserData) (db : DB) :
      DBReachable db → DBReachable (store_user u db)
  | step_store_rel (f g : String) (db : DB) :
      DBReachable db → DBReachable (store_following_relationship f g db).1
  | step_batch (f : String) (data : List UserData) (db : DB) :
      DBReachable db → DBReachable (store_followings_batch_with_check f data db).1
  | step_mark (u : String) (c p m : Nat) (ic : Bool) (em : Option String) (db : DB) :
      DBReachable db → DBReachable (mark_followings_scraped u c p m ic em db)
  | step_reset (u : String) (db : DB) :
      DBReachable db → DBReachable (reset_processing_status u db)
  | step_collect (ps : Nat) (o : UserOracle) (u : String) (mp : Option Nat)
      (force : Bool) (fuel : Nat) (db db2 : DB) (res : CollectResult) :
      DBReachable db →
      collect_user_and_followings ps o u mp force fuel db = some (db2, res) →
      DBReachable db2
  | step_collect_many (ps : Nat) (beh : String → CollectBehavior) (us : List String)
      (mp : Option Nat) (force : Bool) (fuel : Nat) (db db2 : DB)
      (res : List (String × CollectResult)) :
      DBReachable db →
      collect_multiple_users ps beh us mp force fuel db = some (db2, res) →
      DBReachable db2

/-- C10: in every reachable store state, every crawl-state record has
scraped=true — mark_followings_scraped hard-codes the flag, reset deletes the
record outright — so "not yet attempted" is representable only by the absence
of a record, never by scraped=false. -/
theorem claim_C10_scraped_always_true (db : DB) (h : DBReachable db) :
    ∀ r ∈ db.status, r.followings_scraped = true := by
  induction h with
  | init => intro r hr; cases hr
  | step_store_user u db _ ih => intro r hr; exact ih r hr
  | step_store_rel f g db _ ih =>
    intro r hr
    rw [store_following_relationship_status] at hr
    exact ih r hr
  | step_batch f data db _ ih =>
    intro r hr
    rw [store_followings_batch_status] at hr
    exact ih r hr
  | step_mark u c p m ic em db _ ih =>
    intro r hr
    rcases mem_mark_status r _ _ _ _ _ _ _ hr with hrow | hold
    · rw [hrow]; rfl
    · exact ih r hold
  | step_reset u db _ ih =>
    intro r hr
    exact ih r (List.mem_of_mem_filter hr)
  | step_collect ps o u mp force fuel db db2 res _ hc ih =>
    intro r hr
    rcases collect_status_scraped ps o u mp force fuel db db2 res hc r hr with ht | hold
    · exact ht
    · exact ih r hold
  | step_collect_many ps beh us mp force fuel db db2 res _ hc ih =>
    intro r hr
    rcases collect_multiple_loop_status_scraped ps beh mp force fuel us db db2 [] res hc
        r hr with ht | hold
    · exact ht
    · exact ih r hold

theorem claim_C10_witness :
    (StatusRow.followings_scraped
      (mkStatusRow "Bob" 0 0 10 false (some "boom"))) = true :=
  claim_C10_scraped_always_true
    (mark_followings_scraped "Bob" 0 0 10 false (some "boom") emptyDB)
    (DBReachable.step_mark "Bob" 0 0 10 false (some "boom") emptyDB DBReachable.init)
    (mkStatusRow "Bob" 0 0 10 false (some "boom"))
    (by simp [mark_followings_scraped, upsertStatus, emptyDB])

/-
  C1: short-circuit behaviour on existing crawl-state records.
-/

def c1db : DB :=
  mark_followings_scraped "bob" 0 0 10 false (some "Failed to retrieve user data for bob")
    emptyDB

def c1oracle : UserOracle :=
  { userInfo := .httpStatus 200 (.parsed ⟨"success", some sampleUserD⟩)
    followingsPhase := .responds (fun _ => .httpStatus 200 (.parsed ⟨"success", [], false, none⟩)) }

/-- C1 counterexample: c1db holds a FAILED crawl-state record for bob
(is_complete=false, error message set, scraped flag true).  A collection
request without forced reprocessing nevertheless short-circuits: it returns
the already-processed summary and leaves the store untouched, although the
oracle would have answered the profile fetch; only with forced reprocessing
does the fetch happen.  This refutes the claim that a FAILED entity does not
short-circuit. -/
theorem claim_C1_counterexample :
    ((get_processing_status "bob" c1db).map
      (fun r => (r.followings_scraped, r.is_complete, r.error_message.isSome))) =
      some (true, false, true)
    ∧ collect_user_and_followings 200 c1oracle "bob" none false 10 c1db =
        some (c1db, .alreadyProcessed 0)
    ∧ collect_user_and_followings 200 c1oracle "bob" none true 10 c1db =
        some (mark_followings_scraped "bob" 0 0 10 true none (store_user sampleUserD c1db),
          .zeroFollowings) := by
  refine ⟨by decide, by decide, by decide⟩

/-- C1 amended: a collection request without forced reprocessing
short-circuits whenever ANY crawl-state record exists for the entity —
COMPLETE or FAILED alike, because the scraped flag consulted by the check is
written true on both outcomes — returning the stored followings count with the
store untouched; only when no crawl-state record exists does the call proceed,
behaving exactly like a forced call (profile fetch attempted). -/
theorem claim_C1_amended_short_circuit (ps : Nat) (o : UserOracle) (u : String)
    (mp : Option Nat) (fuel : Nat) (db : DB) :
    (is_followings_scraped u db = true →
      collect_user_and_followings ps o u mp false fuel db =
        some (db, .alreadyProcessed
          (((get_processing_status u db).map (·.followings_count)).getD 0)))
    ∧ (is_followings_scraped u db = false →
      collect_user_and_followings ps o u mp false fuel db =
        collect_user_and_followings ps o u mp true fuel db) := by
  constructor
  · intro hs
    unfold collect_user_and_followings
    rw [show (!false && is_followings_scraped u db) = true by simp [hs]]
    simp
  · intro hs
    unfold collect_user_and_followings
    rw [show (!false && is_followings_scraped u db) = false by simp [hs]]
    rw [show (!true && is_followings_scraped u db) = false by simp]

theorem claim_C1_witness :
    collect_user_and_followings 200 c1oracle "bob" none false 10 c1db =
      some (c1db, .alreadyProcessed 0)
    ∧ collect_user_and_followings 200 c1oracle "carol" none false 10 emptyDB =
        collect_user_and_followings 200 c1oracle "carol" none true 10 emptyDB := by
  constructor
  · exact ((claim_C1_amended_short_circuit 200 c1oracle "bob" none 10 c1db).1
      (by decide)).trans (by decide)
  · exact (claim_C1_amended_short_circuit 200 c1oracle "carol" none 10 emptyDB).2
      (by decide)

theorem find?_upsert_aux (row : StatusRow) :
    ∀ rows : List StatusRow, rows.any (·.username == row.username) = true →
      ((rows.map (fun r => if r.username == row.username then row else r)).find?
        (·.username == row.username)) = some row := by
  intro rows
  induction rows with
  | nil => intro h; cases h
  | cons r rs ih =>
    intro h
    simp only [List.map_cons]
    by_cases hm : (r.username == row.username) = true
    · rw [if_pos hm]
      rw [List.find?_cons_of_pos (p := fun x : StatusRow => x.username == row.username) _
        (by simp)]
    · rw [if_neg hm]
      rw [List.find?_cons_of_neg (p := fun x : StatusRow => x.username == row.username) _
        (by simpa using hm)]
      apply ih
      simpa [hm] using h

theorem find?_upsert_other_aux (row : StatusRow) (k : String) (hk : k ≠ row.username) :
    ∀ rows : List StatusRow,
      ((rows.map (fun r => if r.username == row.username then row else r)).find?
        (·.username == k)) = rows.find? (·.username == k) := by
  intro rows
  induction rows with
  | nil => rfl
  | cons r rs ih =>
    simp only [List.map_cons]
    by_cases hm : (r.username == row.username) = true
    · rw [if_pos hm]
      have hrowk : ¬ (row.username == k) = true := by
        simp only [beq_iff_eq]
        exact fun he => hk he.symm
      have hrk : ¬ (r.username == k) = true := by
        have he : r.username = row.username := by simpa using hm
        simp only [beq_iff_eq, he]
        exact fun he2 => hk he2.symm
      rw [List.find?_cons_of_neg (p := fun x : StatusRow => x.username == k) _ hrowk,
        List.find?_cons_of_neg (p := fun x : StatusRow => x.username == k) _ hrk]
      exact ih
    · rw [if_neg hm]
      by_cases hp : (r.username == k) = true
      · rw [List.find?_cons_of_pos (p := fun x : StatusRow => x.username == k) _ hp,
          List.find?_cons_of_pos (p := fun x : StatusRow => x.username == k) _ hp]
      · rw [List.find?_cons_of_neg (p := fun x : StatusRow => x.username == k) _ hp,
          List.find?_cons_of_neg (p := fun x : StatusRow => x.username == k) _ hp]
        exact ih

theorem upsertStatus_find_self (row : StatusRow) (rows : List StatusRow) :
    (upsertStatus row rows).find? (·.username == row.username) = some row := by
  unfold upsertStatus
  by_cases hany : rows.any (·.username == row.username) = true
  · rw [if_pos hany]; exact find?_upsert_aux row rows hany
  · rw [if_neg hany]
    rw [List.find?_append]
    have h1 : rows.find? (·.username == row.username) = none := by
      rw [List.find?_eq_none]
      intro x hx hpx
      exact hany (List.any_eq_true.2 ⟨x, hx, hpx⟩)
    rw [h1]
    simp [List.find?]

theorem upsertStatus_find_other (row : StatusRow) (rows : List StatusRow) (k : String)
    (hk : k ≠ row.username) :
    (upsertStatus row rows).find? (·.username == k) = rows.find? (·.username == k) := by
  unfold upsertStatus
  by_cases hany : rows.any (·.username == row.username) = true
  · rw [if_pos hany]; exact find?_upsert_other_aux row k hk rows
  · rw [if_neg hany]
    rw [List.find?_append]
    have h2 : [row].find? (·.username == k) = none := by
      rw [List.find?_eq_none]
      intro x hx hpx
      simp only [List.mem_singleton] at hx
      subst hx
      have : x.username = k := by simpa using hpx
      exact hk this.symm
    rw [h2]
    cases rows.find? (·.username == k) <;> rfl

theorem mark_status_eq (u : String) (c p m : Nat) (ic : Bool) (em : Option String)
    (db : DB) :
    (mark_followings_scraped u c p m ic em db).status =
      upsertStatus (mkStatusRow u c p m ic em) db.status := rfl

theorem get_processing_status_mark_self (u : String) (c p m : Nat) (ic : Bool)
    (em : Option String) (db : DB) :
    get_processing_status u (mark_followings_scraped u c p m ic em db) =
      some (mkStatusRow u c p m ic em) := by
  unfold get_processing_status
  rw [mark_status_eq]
  exact upsertStatus_find_self (mkStatusRow u c p m ic em) db.status

theorem get_processing_status_mark_other (u w : String) (c p m : Nat) (ic : Bool)
    (em : Option String) (db : DB) (h : pyLower w ≠ pyLower u) :
    get_processing_status w (mark_followings_scraped u c p m ic em db) =
      get_processing_status w db := by
  unfold get_processing_status
  rw [mark_status_eq]
  exact upsertStatus_find_other (mkStatusRow u c p m ic em) db.status (pyLower w) h

theorem any_upsert_other_aux (row : StatusRow) (k : String) (hk : k ≠ row.username) :
    ∀ rows : List StatusRow,
      ((rows.map (fun r => if r.username == row.username then row else r)).any
        (fun r => r.username == k && r.followings_scraped)) =
      rows.any (fun r => r.username == k && r.followings_scraped) := by
  intro rows
  induction rows with
  | nil => rfl
  | cons r rs ih =>
    simp only [List.map_cons, List.any_cons]
    by_cases hm : (r.username == row.username) = true
    · rw [if_pos hm]
      have hrowk : (row.username == k) = false := by
        simp only [beq_eq_false_iff_ne, ne_eq]
        exact fun he => hk he.symm
      have hrk : (r.username == k) = false := by
        have he : r.username = row.username := by simpa using hm
        simp only [beq_eq_false_iff_ne, ne_eq, he]
        exact fun he2 => hk he2.symm
      rw [hrowk, hrk, ih]
      simp
    · rw [if_neg hm, ih]

theorem is_followings_scraped_mark_other (u w : String) (c p m : Nat) (ic : Bool)
    (em : Option String) (db : DB) (h : pyLower w ≠ pyLower u) :
    is_followings_scraped w (mark_followings_scraped u c p m ic em db) =
      is_followings_scraped w db := by
  unfold is_followings_scraped
  rw [mark_status_eq]
  unfold upsertStatus
  by_cases hany :
      db.status.any (·.username == (mkStatusRow u c p m ic em).username) = true
  · rw [if_pos hany]
    exact any_upsert_other_aux (mkStatusRow u c p m ic em) (pyLower w) h db.status
  · rw [if_neg hany]
    rw [List.any_append]
    have h1 : ([mkStatusRow u c p m ic em].any
        (fun r => r.username == pyLower w && r.followings_scraped)) = false := by
      have hne : ((mkStatusRow u c p m ic em).username == pyLower w) = false := by
        simp only [beq_eq_false_iff_ne, ne_eq, mkStatusRow]
        exact fun he => h he.symm
      simp [hne]
    rw [h1]
    simp

/-
  Path characterizations of collect_user_and_followings.
-/

theorem collect_run_profile_fail (ps : Nat) (o : UserOracle) (u : String)
    (mp : Option Nat) (force : Bool) (fuel : Nat) (db : DB)
    (hsc : (!force && is_followings_scraped u db) = false)
    (hud : get_user_data o.userInfo = none) :
    collect_user_and_followings ps o u mp force fuel db =
      some (mark_followings_scraped u 0 0 (mp.getD MAX_PAGES_PER_USER) false
        (some ("Failed to retrieve user data for " ++ u)) db,
        .errorResult "Failed to retrieve user data") := by
  unfold collect_user_and_followings
  rw [hsc, hud]
  rfl

theorem collect_run_raises (ps : Nat) (o : UserOracle) (u : String)
    (mp : Option Nat) (force : Bool) (fuel : Nat) (db : DB) (ud : UserData) (msg : String)
    (hsc : (!force && is_followings_scraped u db) = false)
    (hud : get_user_data o.userInfo = some ud)
    (hph : o.followingsPhase = .raises msg) :
    collect_user_and_followings ps o u mp force fuel db =
      some (mark_followings_scraped u 0 0 (mp.getD MAX_PAGES_PER_USER) false
        (some ("Error during followings collection: " ++ msg)) (store_user ud db),
        .errorResult ("Error during followings collection: " ++ msg)) := by
  unfold collect_user_and_followings
  rw [hsc, hud, hph]
  rfl

theorem collect_run_zero (ps : Nat) (o : UserOracle) (u : String)
    (mp : Option Nat) (force : Bool) (fuel : Nat) (db : DB) (ud : UserData)
    (pages : Nat → HttpResult FollowingsBody) (reqs : Nat)
    (hsc : (!force && is_followings_scraped u db) = false)
    (hud : get_user_data o.userInfo = some ud)
    (hph : o.followingsPhase = .responds pages)
    (hloop : get_all_user_followings (fun i => get_user_followings (pages i))
      (some (mp.getD MAX_PAGES_PER_USER)) fuel = some ([], reqs)) :
    collect_user_and_followings ps o u mp force fuel db =
      some (mark_followings_scraped u 0 0 (mp.getD MAX_PAGES_PER_USER) true none
        (store_user ud db), .zeroFollowings) := by
  unfold collect_user_and_followings
  rw [hsc, hud, hph]
  simp only [hloop]
  rfl

theorem collect_run_stats (ps : Nat) (o : UserOracle) (u : String)
    (mp : Option Nat) (force : Bool) (fuel : Nat) (db : DB) (ud : UserData)
    (pages : Nat → HttpResult FollowingsBody) (data : List UserData) (reqs : Nat)
    (hsc : (!force && is_followings_scraped u db) = false)
    (hud : get_user_data o.userInfo = some ud)
    (hph : o.followingsPhase = .responds pages)
    (hloop : get_all_user_followings (fun i => get_user_followings (pages i))
      (some (mp.getD MAX_PAGES_PER_USER)) fuel = some (data, reqs))
    (hne : data ≠ []) :
    collect_user_and_followings ps o u mp force fuel db =
      some (mark_followings_scraped u data.length ((data.length + ps - 1) / ps)
        (mp.getD MAX_PAGES_PER_USER) true none
        (store_followings_batch_with_check u data (store_user ud db)).1,
        .stats (store_followings_batch_with_check u data (store_user ud db)).2.1
          (store_followings_batch_with_check u data (store_user ud db)).2.2.1
          (store_followings_batch_with_check u data (store_user ud db)).2.2.2
          data.length ((data.length + ps - 1) / ps)) := by
  unfold collect_user_and_followings
  rw [hsc, hud, hph]
  simp only [hloop]
  have hie : data.isEmpty = false := by simpa [List.isEmpty_iff] using hne
  simp only [hie]
  rfl

/-- C6: a collection whose profile fetch succeeds but whose followings fetch
returns an empty target list writes a crawl-state record with
is_complete=true, edge_count=0 and pages_scraped=0 (and no error message),
and returns the zero-activity success result, not an error. -/
theorem claim_C6_zero_targets_complete (ps : Nat) (o : UserOracle) (u : String)
    (mp : Option Nat) (force : Bool) (fuel : Nat) (db : DB) (ud : UserData)
    (pages : Nat → HttpResult FollowingsBody) (reqs : Nat)
    (hsc : (!force && is_followings_scraped u db) = false)
    (hud : get_user_data o.userInfo = some ud)
    (hph : o.followingsPhase = .responds pages)
    (hloop : get_all_user_followings (fun i => get_user_followings (pages i))
      (some (mp.getD MAX_PAGES_PER_USER)) fuel = some ([], reqs)) :
    collect_user_and_followings ps o u mp force fuel db =
      some (mark_followings_scraped u 0 0 (mp.getD MAX_PAGES_PER_USER) true none
        (store_user ud db), .zeroFollowings)
    ∧ get_processing_status u (mark_followings_scraped u 0 0 (mp.getD MAX_PAGES_PER_USER)
        true none (store_user ud db)) =
      some (mkStatusRow u 0 0 (mp.getD MAX_PAGES_PER_USER) true none)
    ∧ (mkStatusRow u 0 0 (mp.getD MAX_PAGES_PER_USER) true none).is_complete = true
    ∧ (mkStatusRow u 0 0 (mp.getD MAX_PAGES_PER_USER) true none).followings_count = 0
    ∧ (mkStatusRow u 0 0 (mp.getD MAX_PAGES_PER_USER) true none).pages_scraped = 0
    ∧ (mkStatusRow u 0 0 (mp.getD MAX_PAGES_PER_USER) true none).error_message = none :=
  ⟨collect_run_zero ps o u mp force fuel db ud pages reqs hsc hud hph hloop,
   get_processing_status_mark_self u 0 0 (mp.getD MAX_PAGES_PER_USER) true none
     (store_user ud db), rfl, rfl, rfl, rfl⟩

def okProfileOracle : UserOracle :=
  { userInfo := .httpStatus 200 (.parsed ⟨"success", some sampleUserD⟩)
    followingsPhase := .responds
      (fun _ => .httpStatus 200 (.parsed ⟨"success", [], false, none⟩)) }

theorem claim_C6_witness :
    collect_user_and_followings 200 okProfileOracle "Alice" none false 3 emptyDB =
      some (mark_followings_scraped "Alice" 0 0 10 true none
        (store_user sampleUserD emptyDB), .zeroFollowings)
    ∧ get_processing_status "Alice" (mark_followings_scraped "Alice" 0 0 10 true none
        (store_user sampleUserD emptyDB)) =
      some (mkStatusRow "Alice" 0 0 10 true none) := by
  have h := claim_C6_zero_targets_complete 200 okProfileOracle "Alice" none false 3 emptyDB
    sampleUserD (fun _ => .httpStatus 200 (.parsed ⟨"success", [], false, none⟩)) 1
    (by decide) (by decide) rfl (by decide)
  exact ⟨h.1, h.2.1⟩

theorem ceil_div_bounds (n ps : Nat) (hn : 0 < n) (hps : 0 < ps) :
    n ≤ ps * ((n + ps - 1) / ps) ∧ ps * ((n + ps - 1) / ps - 1) < n := by
  have h1 : n + ps - 1 = (n - 1) + ps := by omega
  rw [h1, Nat.add_div_right _ hps]
  have e := Nat.div_add_mod (n - 1) ps
  have hm : (n - 1) % ps < ps := Nat.mod_lt _ hps
  constructor
  · have h2 : ps * ((n - 1) / ps + 1) = ps * ((n - 1) / ps) + ps := by ring
    rw [h2]
    omega
  · simp only [Nat.add_sub_cancel]
    omega

/-- C9: a successful collection that fetched a non-empty target list of
length n with page size p > 0 writes pages_scraped = (n + p - 1) / p to the
crawl state, which is exactly the ceiling of n / p (it equals Mathlib ceiling
division and satisfies the ceiling bounds); in particular 250 targets with
page size 200 give pages_scraped = 2. -/
theorem claim_C9_pages_scraped_is_ceiling (ps : Nat) (o : UserOracle) (u : String)
    (mp : Option Nat) (force : Bool) (fuel : Nat) (db : DB) (ud : UserData)
    (pages : Nat → HttpResult FollowingsBody) (data : List UserData) (reqs : Nat)
    (hps : 0 < ps)
    (hsc : (!force && is_followings_scraped u db) = false)
    (hud : get_user_data o.userInfo = some ud)
    (hph : o.followingsPhase = .responds pages)
    (hloop : get_all_user_followings (fun i => get_user_followings (pages i))
      (some (mp.getD MAX_PAGES_PER_USER)) fuel = some (data, reqs))
    (hne : data ≠ []) :
    collect_user_and_followings ps o u mp force fuel db =
      some (mark_followings_scraped u data.length ((data.length + ps - 1) / ps)
        (mp.getD MAX_PAGES_PER_USER) true none
        (store_followings_batch_with_check u data (store_user ud db)).1,
        .stats (store_followings_batch_with_check u data (store_user ud db)).2.1
          (store_followings_batch_with_check u data (store_user ud db)).2.2.1
          (store_followings_batch_with_check u data (store_user ud db)).2.2.2
          data.length ((data.length + ps - 1) / ps))
    ∧ get_processing_status u (mark_followings_scraped u data.length
        ((data.length + ps - 1) / ps) (mp.getD MAX_PAGES_PER_USER) true none
        (store_followings_batch_with_check u data (store_user ud db)).1) =
      some (mkStatusRow u data.length ((data.length + ps - 1) / ps)
        (mp.getD MAX_PAGES_PER_USER) true none)
    ∧ (data.length + ps - 1) / ps = data.length ⌈/⌉ ps
    ∧ data.length ≤ ps * ((data.length + ps - 1) / ps)
    ∧ ps * ((data.length + ps - 1) / ps - 1) < data.length
    ∧ (data.length = 250 → ps = 200 → (data.length + ps - 1) / ps = 2) := by
  have hn : 0 < data.length := List.length_pos.2 hne
  have hb := ceil_div_bounds data.length ps hn hps
  refine ⟨collect_run_stats ps o u mp force fuel db ud pages data reqs hsc hud hph hloop hne,
    get_processing_status_mark_self u data.length ((data.length + ps - 1) / ps)
      (mp.getD MAX_PAGES_PER_USER) true none _,
    rfl, hb.1, hb.2, ?_⟩
  intro h250 h200
  rw [h250, h200]

def c9pages : Nat → HttpResult FollowingsBody := fun i =>
  if i == 0 then
    .httpStatus 200 (.parsed ⟨"success",
      [{ sampleUserD with userName := "t1" }, { sampleUserD with userName := "t2" }],
      true, some "cur"⟩)
  else
    .httpStatus 200 (.parsed ⟨"success", [{ sampleUserD with userName := "t3" }],
      false, none⟩)

def c9oracle : UserOracle :=
  { userInfo := .httpStatus 200 (.parsed ⟨"success", some sampleUserD⟩)
    followingsPhase := .responds c9pages }

def c9data : List UserData :=
  [{ sampleUserD with userName := "t1" }, { sampleUserD with userName := "t2" },
   { sampleUserD with userName := "t3" }]

theorem claim_C9_witness :
    get_processing_status "Alice" (mark_followings_scraped "Alice" c9data.length
        ((c9data.length + 2 - 1) / 2) 10 true none
        (store_followings_batch_with_check "Alice" c9data (store_user sampleUserD emptyDB)).1) =
      some (mkStatusRow "Alice" 3 2 10 true none)
    ∧ (c9data.length + 2 - 1) / 2 = c9data.length ⌈/⌉ 2
    ∧ c9data.length ≤ 2 * ((c9data.length + 2 - 1) / 2) := by
  have h := claim_C9_pages_scraped_is_ceiling 2 c9oracle "Alice" none false 4 emptyDB
    sampleUserD c9pages c9data 2 (by omega) (by decide) (by decide) rfl (by decide)
    (by decide)
  exact ⟨h.2.1.trans (by decide), h.2.2.1, h.2.2.2.1⟩

/-
  Entity-store and edge-store frame lemmas for the batch path.
-/

theorem lookupBool_users_exist_batch (ids : List String) (db : DB) (u : String)
    (hu : u ∈ ids) :
    lookupBool (users_exist_batch ids db) u =
      (db.users.map (fun r => r.username)).contains (pyLower u) := by
  unfold lookupBool
  rw [users_exist_batch_lookup ids db u hu]
  rfl

theorem mem_upsertUser (r row : UserRow) (l : List UserRow)
    (h : r ∈ upsertUser row l) : r ∈ l ∨ r = row := by
  unfold upsertUser at h
  by_cases hany : l.any (·.username == row.username)
  · rw [if_pos hany] at h
    obtain ⟨r0, hr0, heq⟩ := List.mem_map.1 h
    by_cases hm : (r0.username == row.username) = true
    · rw [if_pos hm] at heq; exact Or.inr heq.symm
    · rw [if_neg hm] at heq; exact Or.inl (heq ▸ hr0)
  · rw [if_neg hany] at h
    rcases List.mem_append.1 h with h1 | h1
    · exact Or.inl h1
    · simp only [List.mem_singleton] at h1; exact Or.inr h1

theorem upsertUser_preserves (row r : UserRow) (l : List UserRow)
    (hr : r ∈ l) (hk : r.username ≠ row.username) : r ∈ upsertUser row l := by
  unfold upsertUser
  by_cases hany : l.any (·.username == row.username)
  · rw [if_pos hany]
    refine List.mem_map.2 ⟨r, hr, ?_⟩
    rw [if_neg (by simpa using hk)]
  · rw [if_neg hany]
    exact List.mem_append.2 (Or.inl hr)

theorem store_user_followings (u : UserData) (db : DB) :
    (store_user u db).followings = db.followings := rfl

theorem store_user_status (u : UserData) (db : DB) :
    (store_user u db).status = db.status := rfl

theorem store_rel_mem (f g : String) (db : DB) :
    (pyLower f, pyLower g) ∈ (store_following_relationship f g db).1.followings := by
  unfold store_following_relationship
  by_cases h : (pyLower f, pyLower g) ∈ db.followings
  · rw [if_pos h]; exact h
  · rw [if_neg h]
    simp

theorem store_rel_mono (f g : String) (db : DB) (e : String × String)
    (he : e ∈ db.followings) : e ∈ (store_following_relationship f g db).1.followings := by
  unfold store_following_relationship
  by_cases h : (pyLower f, pyLower g) ∈ db.followings
  · rw [if_pos h]; exact he
  · rw [if_neg h]
    simp only [List.mem_append]
    exact Or.inl he

theorem batch_loop_frame (follower : String) (exMap : List (String × Bool))
    (keys0 : List String) :
    ∀ (data : List UserData) (db : DB) (nu eu rel : Nat),
      (∀ t ∈ data, t.userName ≠ "" →
        lookupBool exMap t.userName = keys0.contains (pyLower t.userName)) →
      (∀ r ∈ db.users, r.username ∈ keys0 →
        r ∈ (batch_loop follower exMap data db nu eu rel).1.users)
      ∧ (∀ r ∈ (batch_loop follower exMap data db nu eu rel).1.users,
          r ∈ db.users ∨ (keys0.contains r.username = false
            ∧ ∃ t ∈ data, t.userName ≠ "" ∧ r.username = pyLower t.userName))
      ∧ (∀ t ∈ data, t.userName ≠ "" →
          (pyLower follower, pyLower (pyLower t.userName)) ∈
            (batch_loop follower exMap data db nu eu rel).1.followings)
      ∧ (∀ e ∈ db.followings, e ∈ (batch_loop follower exMap data db nu eu rel).1.followings) := by
  intro data
  induction data with
  | nil =>
    intro db nu eu rel _
    refine ⟨fun r hr _ => hr, fun r hr => Or.inl hr, fun t ht => absurd ht (by simp),
      fun e he => he⟩
  | cons t rest ih =>
    intro db nu eu rel hex
    rw [batch_loop]
    by_cases hteq : (t.userName == "") = true
    · rw [if_pos hteq]
      have hrest := ih db nu eu rel (fun s hs => hex s (List.mem_cons_of_mem t hs))
      refine ⟨hrest.1, ?_, ?_, hrest.2.2.2⟩
      · intro r hr
        rcases hrest.2.1 r hr with h1 | ⟨h1, s, hs, h2⟩
        · exact Or.inl h1
        · exact Or.inr ⟨h1, s, List.mem_cons_of_mem t hs, h2⟩
      · intro s hs hsne
        rcases List.mem_cons.1 hs with rfl | hs2
        · exact absurd (by simpa using hteq) hsne
        · exact hrest.2.2.1 s hs2 hsne
    · rw [if_neg hteq]
      have htne : t.userName ≠ "" := by simpa using hteq
      have hlook := hex t (List.mem_cons_self t rest) htne
      by_cases hc : keys0.contains (pyLower t.userName) = true
      · -- existing target: no profile write, edge upserted
        rw [hlook, hc]
        simp only [if_pos]
        set db2 := (store_following_relationship follower (pyLower t.userName) db).1 with hdb2
        have husers : db2.users = db.users := store_following_relationship_users _ _ _
        have hrest := ih db2 nu (eu + 1)
          (if (store_following_relationship follower (pyLower t.userName) db).2 then rel + 1 else rel)
          (fun s hs => hex s (List.mem_cons_of_mem t hs))
        refine ⟨?_, ?_, ?_, ?_⟩
        · intro r hr hk
          exact hrest.1 r (by rw [husers]; exact hr) hk
        · intro r hr
          rcases hrest.2.1 r hr with h1 | ⟨h1, s, hs, h2, h3⟩
          · exact Or.inl (by rwa [husers] at h1)
          · exact Or.inr ⟨h1, s, List.mem_cons_of_mem t hs, h2, h3⟩
        · intro s hs hsne
          rcases List.mem_cons.1 hs with rfl | hs2
          · exact hrest.2.2.2 _ (store_rel_mem follower (pyLower s.userName) db)
          · exact hrest.2.2.1 s hs2 hsne
        · intro e he
          exact hrest.2.2.2 e (store_rel_mono follower (pyLower t.userName) db e he)
      · -- new target: profile stored, edge upserted
        have hcf : keys0.contains (pyLower t.userName) = false := by
          simpa using hc
        rw [hlook, hcf]
        simp only [Bool.false_eq_true, if_neg, if_false]
        set db1 := store_user t db with hdb1
        set db2 := (store_following_relationship follower (pyLower t.userName) db1).1 with hdb2
        have husers2 : db2.users = db1.users := store_following_relationship_users _ _ _
        have husers1 : db1.users = upsertUser (mkUserRow t) db.users := rfl
        have hrest := ih db2 (nu + 1) eu
          (if (store_following_relationship follower (pyLower t.userName) db1).2 then rel + 1 else rel)
          (fun s hs => hex s (List.mem_cons_of_mem t hs))
        refine ⟨?_, ?_, ?_, ?_⟩
        · intro r hr hk
          refine hrest.1 r ?_ hk
          rw [husers2, husers1]
          refine upsertUser_preserves _ r _ hr ?_
          intro heq
          rw [show (mkUserRow t).username = pyLower t.userName from rfl] at heq
          rw [heq] at hk
          have : keys0.contains (pyLower t.userName) = true := by
            simp only [List.contains, List.elem_eq_mem, decide_eq_true_eq]
            exact hk
          rw [this] at hcf
          cases hcf
        · intro r hr
          rcases hrest.2.1 r hr with h1 | ⟨h1, s, hs, h2, h3⟩
          · rw [husers2, husers1] at h1
            rcases mem_upsertUser r (mkUserRow t) db.users h1 with h2 | h2
            · exact Or.inl h2
            · refine Or.inr ⟨?_, t, List.mem_cons_self t rest, htne, ?_⟩
              · rw [h2]; exact hcf
              · rw [h2]; rfl
          · exact Or.inr ⟨h1, s, List.mem_cons_of_mem t hs, h2, h3⟩
        · intro s hs hsne
          rcases List.mem_cons.1 hs with rfl | hs2
          · exact hrest.2.2.2 _ (store_rel_mem follower (pyLower s.userName) db1)
          · exact hrest.2.2.1 s hs2 hsne
        · intro e he
          refine hrest.2.2.2 e ?_
          refine store_rel_mono follower (pyLower t.userName) db1 e ?_
          rw [show db1.followings = db.followings from rfl]
          exact he

/-- C7: the batch upsert never touches Entity Store rows whose identifier was
present before the call (their row survives unchanged); entity rows are
written only for identifiers absent before the call; and the directed edge is
inserted for every target (the per-target lowercased identifier, lowercased
again by the edge writer). -/
theorem claim_C7_batch_frame_effect (follower : String) (data : List UserData) (db : DB)
    (hn : ∀ t ∈ data, t.userName ≠ "") :
    (∀ r ∈ db.users, r ∈ (store_followings_batch_with_check follower data db).1.users)
    ∧ (∀ r ∈ (store_followings_batch_with_check follower data db).1.users,
        r ∈ db.users ∨ (r.username ∉ db.users.map (fun x => x.username)
          ∧ ∃ t ∈ data, r.username = pyLower t.userName))
    ∧ (∀ t ∈ data, (pyLower follower, pyLower (pyLower t.userName)) ∈
        (store_followings_batch_with_check follower data db).1.followings) := by
  unfold store_followings_batch_with_check
  by_cases hemp : data.isEmpty = true
  · rw [if_pos hemp]
    have : data = [] := List.isEmpty_iff.1 hemp
    subst this
    exact ⟨fun r hr => hr, fun r hr => Or.inl hr, fun t ht => absurd ht (by simp)⟩
  · rw [if_neg hemp]
    have hframe := batch_loop_frame follower
      (users_exist_batch ((data.map (fun t => t.userName)).filter (fun s => !(s == ""))) db)
      (db.users.map (fun r => r.username)) data db 0 0 0
      (by
        intro t ht htne
        rw [lookupBool_users_exist_batch _ db t.userName
          (List.mem_filter.2 ⟨List.mem_map_of_mem _ ht, by simpa using htne⟩)])
    refine ⟨?_, ?_, ?_⟩
    · intro r hr
      exact hframe.1 r hr (List.mem_map_of_mem _ hr)
    · intro r hr
      rcases hframe.2.1 r hr with h1 | ⟨h1, t, ht, _, h3⟩
      · exact Or.inl h1
      · refine Or.inr ⟨?_, t, ht, h3⟩
        intro hmem
        rw [show ((db.users.map (fun r => r.username)).contains r.username)
            = decide (r.username ∈ db.users.map (fun r => r.username)) from
          List.elem_eq_mem _ _] at h1
        simp only [decide_eq_false_iff_not] at h1
        exact h1 hmem
    · intro t ht
      exact hframe.2.2.1 t ht (hn t ht)

def c7oldRow : UserRow := { mkUserRow sampleUserD with username := "t1", name := some "OLD" }

def c7t1 : UserData := { sampleUserD with userName := "t1", name := some "NEW" }

def c7t2 : UserData := { sampleUserD with userName := "t2" }

def c7db : DB := { users := [c7oldRow], followings := [], status := [] }

theorem claim_C7_witness :
    c7oldRow ∈ (store_followings_batch_with_check "F" [c7t1, c7t2] c7db).1.users
    ∧ (pyLower "F", pyLower (pyLower "t2")) ∈
        (store_followings_batch_with_check "F" [c7t1, c7t2] c7db).1.followings := by
  have h := claim_C7_batch_frame_effect "F" [c7t1, c7t2] c7db (by decide)
  exact ⟨h.1 c7oldRow (by simp [c7db]), h.2.2 c7t2 (by simp) ⟩

/-
  Per-entity outcome summaries for the batch-collection theorem.
-/

/-- The (scraped flag, is_complete, error_message) triple of the crawl-state
record of one entity, when a record exists. -/
def statusSummary (u : String) (db : DB) : Option (Bool × Bool × Option String) :=
  (get_processing_status u db).map (fun r => (r.followings_scraped, r.is_complete, r.error_message))

theorem statusSummary_mark_self (u : String) (c p m : Nat) (ic : Bool)
    (em : Option String) (db : DB) :
    statusSummary u (mark_followings_scraped u c p m ic em db) = some (true, ic, em) := by
  unfold statusSummary
  rw [get_processing_status_mark_self]
  rfl

theorem statusSummary_mark_other (u w : String) (c p m : Nat) (ic : Bool)
    (em : Option String) (db : DB) (h : pyLower w ≠ pyLower u) :
    statusSummary w (mark_followings_scraped u c p m ic em db) = statusSummary w db := by
  unfold statusSummary
  rw [get_processing_status_mark_other u w c p m ic em db h]

theorem statusSummary_store_user (w : String) (u : UserData) (db : DB) :
    statusSummary w (store_user u db) = statusSummary w db := rfl

theorem statusSummary_batch (w f : String) (data : List UserData) (db : DB) :
    statusSummary w (store_followings_batch_with_check f data db).1 = statusSummary w db := by
  unfold statusSummary get_processing_status
  rw [store_followings_batch_status]

theorem is_followings_scraped_store_user (w : String) (u : UserData) (db : DB) :
    is_followings_scraped w (store_user u db) = is_followings_scraped w db := rfl

theorem is_followings_scraped_batch (w f : String) (data : List UserData) (db : DB) :
    is_followings_scraped w (store_followings_batch_with_check f data db).1 =
      is_followings_scraped w db := by
  unfold is_followings_scraped
  rw [store_followings_batch_status]

/-- A collection run whose profile fetch succeeds and whose pagination loop
returns (with any target list) writes a COMPLETE crawl-state record for the
entity and leaves every other entity's crawl state untouched. -/
theorem collect_run_success_status (ps : Nat) (o : UserOracle) (u : String)
    (mp : Option Nat) (force : Bool) (fuel : Nat) (db : DB) (ud : UserData)
    (pages : Nat → HttpResult FollowingsBody) (data : List UserData) (reqs : Nat)
    (hsc : (!force && is_followings_scraped u db) = false)
    (hud : get_user_data o.userInfo = some ud)
    (hph : o.followingsPhase = .responds pages)
    (hloop : get_all_user_followings (fun i => get_user_followings (pages i))
      (some (mp.getD MAX_PAGES_PER_USER)) fuel = some (data, reqs)) :
    ∃ dbX res, collect_user_and_followings ps o u mp force fuel db = some (dbX, res)
      ∧ statusSummary u dbX = some (true, true, none)
      ∧ (∀ w, pyLower w ≠ pyLower u → statusSummary w dbX = statusSummary w db)
      ∧ (∀ w, pyLower w ≠ pyLower u →
          is_followings_scraped w dbX = is_followings_scraped w db) := by
  by_cases hemp : data = []
  · subst hemp
    refine ⟨_, _, collect_run_zero ps o u mp force fuel db ud pages reqs hsc hud hph hloop,
      statusSummary_mark_self u 0 0 (mp.getD MAX_PAGES_PER_USER) true none _, ?_, ?_⟩
    · intro w hw
      rw [statusSummary_mark_other u w _ _ _ _ _ _ hw, statusSummary_store_user]
    · intro w hw
      rw [is_followings_scraped_mark_other u w _ _ _ _ _ _ hw, is_followings_scraped_store_user]
  · refine ⟨_, _, collect_run_stats ps o u mp force fuel db ud pages data reqs hsc hud hph
      hloop hemp,
      statusSummary_mark_self u data.length ((data.length + ps - 1) / ps)
        (mp.getD MAX_PAGES_PER_USER) true none _, ?_, ?_⟩
    · intro w hw
      rw [statusSummary_mark_other u w _ _ _ _ _ _ hw, statusSummary_batch,
        statusSummary_store_user]
    · intro w hw
      rw [is_followings_scraped_mark_other u w _ _ _ _ _ _ hw, is_followings_scraped_batch,
        is_followings_scraped_store_user]

/-- A collection run whose profile fetch yields no data writes a FAILED
crawl-state record with a non-null message and leaves other entities alone. -/
theorem collect_run_proffail_status (ps : Nat) (o : UserOracle) (u : String)
    (mp : Option Nat) (force : Bool) (fuel : Nat) (db : DB)
    (hsc : (!force && is_followings_scraped u db) = false)
    (hud : get_user_data o.userInfo = none) :
    ∃ dbX, collect_user_and_followings ps o u mp force fuel db =
        some (dbX, .errorResult "Failed to retrieve user data")
      ∧ statusSummary u dbX =
          some (true, false, some ("Failed to retrieve user data for " ++ u))
      ∧ (∀ w, pyLower w ≠ pyLower u → statusSummary w dbX = statusSummary w db)
      ∧ (∀ w, pyLower w ≠ pyLower u →
          is_followings_scraped w dbX = is_followings_scraped w db) := by
  refine ⟨_, collect_run_profile_fail ps o u mp force fuel db hsc hud,
    statusSummary_mark_self u 0 0 (mp.getD MAX_PAGES_PER_USER) false _ _, ?_, ?_⟩
  · intro w hw
    rw [statusSummary_mark_other u w _ _ _ _ _ _ hw]
  · intro w hw
    rw [is_followings_scraped_mark_other u w _ _ _ _ _ _ hw]

theorem collect_multiple_loop_nil (ps : Nat) (beh : String → CollectBehavior)
    (mp : Option Nat) (force : Bool) (fuel : Nat) (db : DB)
    (acc : List (String × CollectResult)) :
    collect_multiple_loop ps beh mp force fuel [] db acc = some (db, acc) := rfl

theorem collect_multiple_loop_cons_escapes (ps : Nat) (beh : String → CollectBehavior)
    (mp : Option Nat) (force : Bool) (fuel : Nat) (u : String) (rest : List String)
    (db : DB) (acc : List (String × CollectResult)) (msg : String)
    (hbe : beh u = .escapes msg) :
    collect_multiple_loop ps beh mp force fuel (u :: rest) db acc =
      collect_multiple_loop ps beh mp force fuel rest
        (mark_followings_scraped u 0 0 (pyOrNat mp MAX_PAGES_PER_USER) false (some msg) db)
        (acc ++ [(u, .errorResult msg)]) := by
  rw [collect_multiple_loop, hbe]

theorem collect_multiple_loop_cons_runs (ps : Nat) (beh : String → CollectBehavior)
    (mp : Option Nat) (force : Bool) (fuel : Nat) (u : String) (rest : List String)
    (db : DB) (acc : List (String × CollectResult)) (o : UserOracle) (dbX : DB)
    (res : CollectResult)
    (hbe : beh u = .runs o)
    (hc : collect_user_and_followings ps o u mp force fuel db = some (dbX, res)) :
    collect_multiple_loop ps beh mp force fuel (u :: rest) db acc =
      collect_multiple_loop ps beh mp force fuel rest dbX (acc ++ [(u, res)]) := by
  rw [collect_multiple_loop, hbe]
  simp only [hc]

/-- C8: batch collection isolates failures.  Collecting [a, b, c] where b
fails — by an exception escaping its per-entity call, or by a failed profile
fetch — still writes COMPLETE crawl-state records for a and c, writes a FAILED
record with a non-null error message for b, and produces one result entry per
entity in order. -/
theorem claim_C8_failure_isolation (ps : Nat) (beh : String → CollectBehavior)
    (a b c : String) (oa oc : UserOracle) (uda udc : UserData)
    (pa pcc : Nat → HttpResult FollowingsBody) (da dc : List UserData) (ra rc : Nat)
    (mp : Option Nat) (fuel : Nat) (db2 : DB)
    (results : List (String × CollectResult))
    (hab : pyLower a ≠ pyLower b) (hbc : pyLower b ≠ pyLower c)
    (hac : pyLower a ≠ pyLower c)
    (hba : beh a = .runs oa)
    (hbb : (∃ msg, beh b = .escapes msg)
      ∨ (∃ ob, beh b = .runs ob ∧ get_user_data ob.userInfo = none))
    (hbcr : beh c = .runs oc)
    (hauda : get_user_data oa.userInfo = some uda)
    (hapha : oa.followingsPhase = .responds pa)
    (haloop : get_all_user_followings (fun i => get_user_followings (pa i))
      (some (mp.getD MAX_PAGES_PER_USER)) fuel = some (da, ra))
    (hcudc : get_user_data oc.userInfo = some udc)
    (hcphc : oc.followingsPhase = .responds pcc)
    (hcloop : get_all_user_followings (fun i => get_user_followings (pcc i))
      (some (mp.getD MAX_PAGES_PER_USER)) fuel = some (dc, rc))
    (hrun : collect_multiple_users ps beh [a, b, c] mp false fuel emptyDB =
      some (db2, results)) :
    statusSummary a db2 = some (true, true, none)
    ∧ (statusSummary b db2).map (fun s => (s.1, s.2.1, s.2.2.isSome)) =
        some (true, false, true)
    ∧ statusSummary c db2 = some (true, true, none)
    ∧ results.map Prod.fst = [a, b, c] := by
  have hscA : (!false && is_followings_scraped a emptyDB) = false := rfl
  obtain ⟨dbA, resA, hCA, hSA, hPA, hFA⟩ := collect_run_success_status ps oa a mp false
    fuel emptyDB uda pa da ra hscA hauda hapha haloop
  have s1 := collect_multiple_loop_cons_runs ps beh mp false fuel a [b, c] emptyDB []
    oa dbA resA hba hCA
  have hstepB : ∃ dbB resB emB,
      collect_multiple_loop ps beh mp false fuel [b, c] dbA ([] ++ [(a, resA)]) =
        collect_multiple_loop ps beh mp false fuel [c] dbB
          (([] ++ [(a, resA)]) ++ [(b, resB)])
      ∧ statusSummary b dbB = some (true, false, some emB)
      ∧ (∀ w, pyLower w ≠ pyLower b → statusSummary w dbB = statusSummary w dbA)
      ∧ (∀ w, pyLower w ≠ pyLower b →
          is_followings_scraped w dbB = is_followings_scraped w dbA) := by
    rcases hbb with ⟨msg, hesc⟩ | ⟨ob, hob, hobfail⟩
    · refine ⟨mark_followings_scraped b 0 0 (pyOrNat mp MAX_PAGES_PER_USER) false
        (some msg) dbA, .errorResult msg, msg, ?_, ?_, ?_, ?_⟩
      · exact collect_multiple_loop_cons_escapes ps beh mp false fuel b [c] dbA _ msg hesc
      · exact statusSummary_mark_self b 0 0 (pyOrNat mp MAX_PAGES_PER_USER) false (some msg) dbA
      · intro w hw
        exact statusSummary_mark_other b w _ _ _ _ _ _ hw
      · intro w hw
        exact is_followings_scraped_mark_other b w _ _ _ _ _ _ hw
    · have hscB : (!false && is_followings_scraped b dbA) = false := by
        rw [Bool.not_false, Bool.true_and]
        rw [hFA b (fun he => hab he.symm)]
        rfl
      obtain ⟨dbB, hCB, hSB, hPB, hFB⟩ := collect_run_proffail_status ps ob b mp false
        fuel dbA hscB hobfail
      refine ⟨dbB, .errorResult "Failed to retrieve user data",
        "Failed to retrieve user data for " ++ b, ?_, hSB, hPB, hFB⟩
      exact collect_multiple_loop_cons_runs ps beh mp false fuel b [c] dbA _ ob dbB _
        hob hCB
  obtain ⟨dbB, resB, emB, s2, hSB, hPB, hFB⟩ := hstepB
  have hscC : (!false && is_followings_scraped c dbB) = false := by
    rw [Bool.not_false, Bool.true_and]
    rw [hFB c (fun he => hbc he.symm), hFA c (fun he => hac he.symm)]
    rfl
  obtain ⟨dbC, resC, hCC, hSC, hPC, hFC⟩ := collect_run_success_status ps oc c mp false
    fuel dbB udc pcc dc rc hscC hcudc hcphc hcloop
  have s3 := collect_multiple_loop_cons_runs ps beh mp false fuel c [] dbB
    (([] ++ [(a, resA)]) ++ [(b, resB)]) oc dbC resC hbcr hCC
  have heq : collect_multiple_users ps beh [a, b, c] mp false fuel emptyDB =
      some (dbC, (([] ++ [(a, resA)]) ++ [(b, resB)]) ++ [(c, resC)]) := by
    rw [collect_multiple_users, s1, s2, s3, collect_multiple_loop_nil]
  have hinj := Option.some.inj (heq.symm.trans hrun)
  have hdb : dbC = db2 := congrArg Prod.fst hinj
  have hres : results = (([] ++ [(a, resA)]) ++ [(b, resB)]) ++ [(c, resC)] :=
    (congrArg Prod.snd hinj).symm
  subst hdb
  refine ⟨?_, ?_, hSC, ?_⟩
  · rw [hPC a hac, hPB a hab, hSA]
  · rw [hPC b hbc, hSB]
    rfl
  · rw [hres]
    rfl

def failProfileOracle : UserOracle :=
  { userInfo := .httpStatus 500 .parseError
    followingsPhase := .responds
      (fun _ => .httpStatus 200 (.parsed ⟨"success", [], false, none⟩)) }

def c8beh : String → CollectBehavior := fun u =>
  if u == "bob" then .runs failProfileOracle else .runs okProfileOracle

def c8check : Bool :=
  match collect_multiple_users 200 c8beh ["alice", "bob", "carol"] none false 3 emptyDB with
  | some (dbX, res) =>
    (statusSummary "alice" dbX == some (true, true, none))
    && (((statusSummary "bob" dbX).map (fun s => (s.1, s.2.1, s.2.2.isSome))) ==
        some (true, false, true))
    && (statusSummary "carol" dbX == some (true, true, none))
    && (res.map Prod.fst == ["alice", "bob", "carol"])
  | none => false

theorem claim_C8_witness : c8check = true := by
  cases hrun : collect_multiple_users 200 c8beh ["alice", "bob", "carol"] none false 3
      emptyDB with
  | none => exact absurd hrun (by decide)
  | some q =>
    obtain ⟨dbX, res⟩ := q
    have h := claim_C8_failure_isolation 200 c8beh "alice" "bob" "carol"
      okProfileOracle okProfileOracle sampleUserD sampleUserD
      (fun _ => .httpStatus 200 (.parsed ⟨"success", [], false, none⟩))
      (fun _ => .httpStatus 200 (.parsed ⟨"success", [], false, none⟩))
      [] [] 1 1 none 3 dbX res
      (by decide) (by decide) (by decide)
      rfl (Or.inr ⟨failProfileOracle, rfl, by decide⟩) rfl
      (by decide) rfl (by decide) (by decide) rfl (by decide)
      hrun
    unfold c8check
    rw [hrun]
    simp only [h.1, h.2.1, h.2.2.1, h.2.2.2]
    rfl

/-
  Canonical-row lemmas for the idempotence theorem.
-/

/-- The store holds exactly this row under its key: some row with the key is
present, and every row with the key is this row. -/
def rowCanon (row : UserRow) (l : List UserRow) : Prop :=
  (∃ r ∈ l, r.username = row.username) ∧ ∀ r ∈ l, r.username = row.username → r = row

theorem rowCanon_upsert_self (row : UserRow) (l : List UserRow) :
    rowCanon row (upsertUser row l) := by
  constructor
  · unfold upsertUser
    by_cases hany : l.any (·.username == row.username) = true
    · rw [if_pos hany]
      obtain ⟨r0, hr0, hm⟩ := List.any_eq_true.1 hany
      refine ⟨row, List.mem_map.2 ⟨r0, hr0, ?_⟩, rfl⟩
      rw [if_pos hm]
    · rw [if_neg hany]
      exact ⟨row, List.mem_append.2 (Or.inr (List.mem_singleton.2 rfl)), rfl⟩
  · intro r hr hname
    unfold upsertUser at hr
    by_cases hany : l.any (·.username == row.username) = true
    · rw [if_pos hany] at hr
      obtain ⟨r0, hr0, heq⟩ := List.mem_map.1 hr
      by_cases hm : (r0.username == row.username) = true
      · rw [if_pos hm] at heq; exact heq.symm
      · rw [if_neg hm] at heq
        subst heq
        exact absurd (by simpa using hname) hm
    · rw [if_neg hany] at hr
      rcases List.mem_append.1 hr with h1 | h1
      · exact absurd (List.any_eq_true.2 ⟨r, h1, by simpa using hname⟩) hany
      · exact List.mem_singleton.1 h1

theorem rowCanon_noop (row : UserRow) (l : List UserRow) (h : rowCanon row l) :
    upsertUser row l = l := by
  unfold upsertUser
  obtain ⟨⟨r0, hr0, hrn⟩, huniq⟩ := h
  rw [if_pos (List.any_eq_true.2 ⟨r0, hr0, by simpa using hrn⟩)]
  have hfun : ∀ a ∈ l, (fun r => if r.username == row.username then row else r) a = id a := by
    intro a ha
    by_cases hm : (a.username == row.username) = true
    · simp only [if_pos hm, id_eq]
      exact (huniq a ha (by simpa using hm)).symm
    · simp only [if_neg hm, id_eq]
  rw [List.map_congr_left hfun, List.map_id]

theorem rowCanon_upsert_other (row row2 : UserRow) (l : List UserRow)
    (h : rowCanon row l) (hne : row2.username ≠ row.username) :
    rowCanon row (upsertUser row2 l) := by
  obtain ⟨⟨r0, hr0, hrn⟩, huniq⟩ := h
  constructor
  · exact ⟨r0, upsertUser_preserves row2 r0 l hr0 (by rw [hrn]; exact fun he => hne he.symm),
      hrn⟩
  · intro r hr hname
    rcases mem_upsertUser r row2 l hr with h1 | h1
    · exact huniq r h1 hname
    · rw [h1] at hname
      exact absurd hname hne

theorem upsertUser_idem (row : UserRow) (l : List UserRow) :
    upsertUser row (upsertUser row l) = upsertUser row l :=
  rowCanon_noop row _ (rowCanon_upsert_self row l)

theorem keys_upsert_mono (row : UserRow) (l : List UserRow) (k : String)
    (hk : k ∈ l.map (fun r => r.username)) :
    k ∈ (upsertUser row l).map (fun r => r.username) := by
  obtain ⟨r, hr, hrn⟩ := List.mem_map.1 hk
  unfold upsertUser
  by_cases hany : l.any (·.username == row.username) = true
  · rw [if_pos hany]
    rw [List.map_map]
    refine List.mem_map.2 ⟨r, hr, ?_⟩
    simp only [Function.comp]
    by_cases hm : (r.username == row.username) = true
    · rw [if_pos hm]
      rw [← hrn]
      exact (by simpa using hm : r.username = row.username).symm
    · rw [if_neg hm]
      exact hrn
  · rw [if_neg hany]
    rw [List.map_append]
    exact List.mem_append.2 (Or.inl (List.mem_map.2 ⟨r, hr, hrn⟩))

theorem keys_upsert_self (row : UserRow) (l : List UserRow) :
    row.username ∈ (upsertUser row l).map (fun r => r.username) := by
  obtain ⟨r, hr, hrn⟩ := (rowCanon_upsert_self row l).1
  exact List.mem_map.2 ⟨r, hr, hrn⟩

theorem batch_loop_users_keys_mono (follower : String) (exMap : List (String × Bool)) :
    ∀ (data : List UserData) (db : DB) (nu eu rel : Nat) (k : String),
      k ∈ db.users.map (fun r => r.username) →
      k ∈ (batch_loop follower exMap data db nu eu rel).1.users.map (fun r => r.username) := by
  intro data
  induction data with
  | nil => intro db nu eu rel k hk; exact hk
  | cons t rest ih =>
    intro db nu eu rel k hk
    rw [batch_loop]
    by_cases hteq : (t.userName == "") = true
    · rw [if_pos hteq]; exact ih db nu eu rel k hk
    · rw [if_neg hteq]
      by_cases hc : lookupBool exMap t.userName = true
      · rw [hc]
        simp only [if_pos]
        refine ih _ nu (eu + 1) _ k ?_
        rw [store_following_relationship_users]
        exact hk
      · rw [show lookupBool exMap t.userName = false by simpa using hc]
        simp only [Bool.false_eq_true, if_neg, if_false]
        refine ih _ (nu + 1) eu _ k ?_
        rw [store_following_relationship_users]
        exact keys_upsert_mono (mkUserRow t) db.users k hk

theorem batch_loop_edges_mono (follower : String) (exMap : List (String × Bool)) :
    ∀ (data : List UserData) (db : DB) (nu eu rel : Nat) (e : String × String),
      e ∈ db.followings →
      e ∈ (batch_loop follower exMap data db nu eu rel).1.followings := by
  intro data
  induction data with
  | nil => intro db nu eu rel e he; exact he
  | cons t rest ih =>
    intro db nu eu rel e he
    rw [batch_loop]
    by_cases hteq : (t.userName == "") = true
    · rw [if_pos hteq]; exact ih db nu eu rel e he
    · rw [if_neg hteq]
      by_cases hc : lookupBool exMap t.userName = true
      · rw [hc]
        simp only [if_pos]
        exact ih _ nu (eu + 1) _ e
          (store_rel_mono follower (pyLower t.userName) db e he)
      · rw [show lookupBool exMap t.userName = false by simpa using hc]
        simp only [Bool.false_eq_true, if_neg, if_false]
        exact ih _ (nu + 1) eu _ e
          (store_rel_mono follower (pyLower t.userName) (store_user t db) e he)

theorem batch_loop_establish (follower : String) (exMap : List (String × Bool)) :
    ∀ (data : List UserData) (db : DB) (nu eu rel : Nat),
      (∀ t ∈ data, t.userName ≠ "" → lookupBool exMap t.userName = true →
        pyLower t.userName ∈ db.users.map (fun r => r.username)) →
      ∀ t ∈ data, t.userName ≠ "" →
        pyLower t.userName ∈
          (batch_loop follower exMap data db nu eu rel).1.users.map (fun r => r.username)
        ∧ (pyLower follower, pyLower (pyLower t.userName)) ∈
          (batch_loop follower exMap data db nu eu rel).1.followings := by
  intro data
  induction data with
  | nil => intro db nu eu rel _ t ht; cases ht
  | cons t rest ih =>
    intro db nu eu rel hex s hs hsne
    rw [batch_loop]
    by_cases hteq : (t.userName == "") = true
    · rw [if_pos hteq]
      rcases List.mem_cons.1 hs with rfl | hs2
      · exact absurd (by simpa using hteq) hsne
      · exact ih db nu eu rel
          (fun x hx hxne hxl => hex x (List.mem_cons_of_mem t hx) hxne hxl) s hs2 hsne
    · rw [if_neg hteq]
      have htne : t.userName ≠ "" := by simpa using hteq
      by_cases hc : lookupBool exMap t.userName = true
      · rw [hc]
        simp only [if_pos]
        have hkey : pyLower t.userName ∈ db.users.map (fun r => r.username) :=
          hex t (List.mem_cons_self t rest) htne hc
        have hkey2 : pyLower t.userName ∈
            (store_following_relationship follower (pyLower t.userName) db).1.users.map
              (fun r => r.username) := by
          rw [store_following_relationship_users]; exact hkey
        rcases List.mem_cons.1 hs with rfl | hs2
        · constructor
          · exact batch_loop_users_keys_mono follower exMap rest _ nu (eu + 1) _ _ hkey2
          · exact batch_loop_edges_mono follower exMap rest _ nu (eu + 1) _ _
              (store_rel_mem follower (pyLower s.userName) db)
        · exact ih _ nu (eu + 1) _
            (fun x hx hxne hxl => by
              rw [store_following_relationship_users]
              exact hex x (List.mem_cons_of_mem t hx) hxne hxl) s hs2 hsne
      · rw [show lookupBool exMap t.userName = false by simpa using hc]
        simp only [Bool.false_eq_true, if_neg, if_false]
        have hkey2 : pyLower t.userName ∈
            (store_following_relationship follower (pyLower t.userName)
              (store_user t db)).1.users.map (fun r => r.username) := by
          rw [store_following_relationship_users]
          exact keys_upsert_self (mkUserRow t) db.users
        rcases List.mem_cons.1 hs with rfl | hs2
        · constructor
          · exact batch_loop_users_keys_mono follower exMap rest _ (nu + 1) eu _ _ hkey2
          · exact batch_loop_edges_mono follower exMap rest _ (nu + 1) eu _ _
              (store_rel_mem follower (pyLower s.userName) (store_user s db))
        · exact ih _ (nu + 1) eu _
            (fun x hx hxne hxl => by
              rw [store_following_relationship_users]
              exact keys_upsert_mono (mkUserRow t) db.users _
                (hex x (List.mem_cons_of_mem t hx) hxne hxl)) s hs2 hsne

theorem batch_loop_canon (follower : String) (exMap : List (String × Bool)) (row : UserRow) :
    ∀ (data : List UserData) (db : DB) (nu eu rel : Nat),
      rowCanon row db.users →
      (∀ t ∈ data, t.userName ≠ "" → lookupBool exMap t.userName = false →
        pyLower t.userName ≠ row.username) →
      rowCanon row (batch_loop follower exMap data db nu eu rel).1.users := by
  intro data
  induction data with
  | nil => intro db nu eu rel hc _; exact hc
  | cons t rest ih =>
    intro db nu eu rel hc hne
    rw [batch_loop]
    by_cases hteq : (t.userName == "") = true
    · rw [if_pos hteq]
      exact ih db nu eu rel hc (fun x hx => hne x (List.mem_cons_of_mem t hx))
    · rw [if_neg hteq]
      have htne : t.userName ≠ "" := by simpa using hteq
      by_cases hcl : lookupBool exMap t.userName = true
      · rw [hcl]
        simp only [if_pos]
        refine ih _ nu (eu + 1) _ ?_ (fun x hx => hne x (List.mem_cons_of_mem t hx))
        constructor
        · obtain ⟨r0, hr0, hrn⟩ := hc.1
          exact ⟨r0, by rw [store_following_relationship_users]; exact hr0, hrn⟩
        · intro r hr hname
          rw [store_following_relationship_users] at hr
          exact hc.2 r hr hname
      · have hclf : lookupBool exMap t.userName = false := by simpa using hcl
        rw [hclf]
        simp only [Bool.false_eq_true, if_neg, if_false]
        refine ih _ (nu + 1) eu _ ?_ (fun x hx => hne x (List.mem_cons_of_mem t hx))
        have hcanon2 : rowCanon row (upsertUser (mkUserRow t) db.users) :=
          rowCanon_upsert_other row (mkUserRow t) db.users hc
            (hne t (List.mem_cons_self t rest) htne hclf)
        constructor
        · obtain ⟨r0, hr0, hrn⟩ := hcanon2.1
          exact ⟨r0, by rw [store_following_relationship_users]; exact hr0, hrn⟩
        · intro r hr hname
          rw [store_following_relationship_users] at hr
          exact hcanon2.2 r hr hname

theorem batch_loop_noop (follower : String) (exMap : List (String × Bool)) :
    ∀ (data : List UserData) (db : DB) (nu eu rel : Nat),
      (∀ t ∈ data, t.userName ≠ "" → lookupBool exMap t.userName = true) →
      (∀ t ∈ data, t.userName ≠ "" →
        (pyLower follower, pyLower (pyLower t.userName)) ∈ db.followings) →
      (batch_loop follower exMap data db nu eu rel).1 = db := by
  intro data
  induction data with
  | nil => intro db nu eu rel _ _; rfl
  | cons t rest ih =>
    intro db nu eu rel hl he
    rw [batch_loop]
    by_cases hteq : (t.userName == "") = true
    · rw [if_pos hteq]
      exact ih db nu eu rel (fun x hx => hl x (List.mem_cons_of_mem t hx))
        (fun x hx => he x (List.mem_cons_of_mem t hx))
    · rw [if_neg hteq]
      have htne : t.userName ≠ "" := by simpa using hteq
      rw [hl t (List.mem_cons_self t rest) htne]
      simp only [if_pos]
      have hmem : (pyLower follower, pyLower (pyLower t.userName)) ∈ db.followings :=
        he t (List.mem_cons_self t rest) htne
      have hrel : store_following_relationship follower (pyLower t.userName) db = (db, false) := by
        unfold store_following_relationship
        rw [if_pos hmem]
      rw [hrel]
      exact ih db nu (eu + 1) rel (fun x hx => hl x (List.mem_cons_of_mem t hx))
        (fun x hx => he x (List.mem_cons_of_mem t hx))

theorem batch_exmap_eq (data : List UserData) (db : DB) (t : UserData)
    (ht : t ∈ data) (hne : t.userName ≠ "") :
    lookupBool (users_exist_batch
        ((data.map (fun s => s.userName)).filter (fun s => !(s == ""))) db) t.userName
      = decide (pyLower t.userName ∈ db.users.map (fun r => r.username)) := by
  rw [lookupBool_users_exist_batch _ db t.userName
    (List.mem_filter.2 ⟨List.mem_map_of_mem _ ht, by simpa using hne⟩)]
  exact List.elem_eq_mem _ _

theorem store_followings_batch_establish (f : String) (data : List UserData) (db : DB) :
    ∀ t ∈ data, t.userName ≠ "" →
      pyLower t.userName ∈
        (store_followings_batch_with_check f data db).1.users.map (fun r => r.username)
      ∧ (pyLower f, pyLower (pyLower t.userName)) ∈
        (store_followings_batch_with_check f data db).1.followings := by
  intro t ht htne
  unfold store_followings_batch_with_check
  have hemp : data.isEmpty = false := by
    cases data with
    | nil => cases ht
    | cons x xs => rfl
  rw [if_neg (by simp [hemp])]
  refine batch_loop_establish f _ data db 0 0 0 ?_ t ht htne
  intro x hx hxne hxl
  rw [batch_exmap_eq data db x hx hxne] at hxl
  exact of_decide_eq_true hxl

theorem store_followings_batch_canon (f : String) (data : List UserData) (db : DB)
    (row : UserRow) (hc : rowCanon row db.users) :
    rowCanon row (store_followings_batch_with_check f data db).1.users := by
  unfold store_followings_batch_with_check
  by_cases hemp : data.isEmpty = true
  · rw [if_pos hemp]; exact hc
  · rw [if_neg hemp]
    refine batch_loop_canon f _ row data db 0 0 0 hc ?_
    intro x hx hxne hxl heq
    rw [batch_exmap_eq data db x hx hxne] at hxl
    have hnot : pyLower x.userName ∉ db.users.map (fun r => r.username) :=
      of_decide_eq_false hxl
    obtain ⟨r0, hr0, hrn⟩ := hc.1
    exact hnot (heq ▸ List.mem_map.2 ⟨r0, hr0, hrn⟩)

theorem store_followings_batch_noop (f : String) (data : List UserData) (db : DB)
    (hkeys : ∀ t ∈ data, t.userName ≠ "" →
      pyLower t.userName ∈ db.users.map (fun r => r.username))
    (hedges : ∀ t ∈ data, t.userName ≠ "" →
      (pyLower f, pyLower (pyLower t.userName)) ∈ db.followings) :
    (store_followings_batch_with_check f data db).1 = db := by
  unfold store_followings_batch_with_check
  by_cases hemp : data.isEmpty = true
  · rw [if_pos hemp]
  · rw [if_neg hemp]
    refine batch_loop_noop f _ data db 0 0 0 ?_ hedges
    intro x hx hxne
    rw [batch_exmap_eq data db x hx hxne]
    exact decide_eq_true (hkeys x hx hxne)

theorem collect_run_loop_none (ps : Nat) (o : UserOracle) (u : String)
    (mp : Option Nat) (force : Bool) (fuel : Nat) (db : DB) (ud : UserData)
    (pages : Nat → HttpResult FollowingsBody)
    (hsc : (!force && is_followings_scraped u db) = false)
    (hud : get_user_data o.userInfo = some ud)
    (hph : o.followingsPhase = .responds pages)
    (hloop : get_all_user_followings (fun i => get_user_followings (pages i))
      (some (mp.getD MAX_PAGES_PER_USER)) fuel = none) :
    collect_user_and_followings ps o u mp force fuel db = none := by
  unfold collect_user_and_followings
  rw [hsc, hud, hph]
  simp only [hloop]
  rfl

/-- C2: running entity collection twice with identical API responses (the
second run forced, so it executes) leaves the Entity Store and the Edge Store
exactly as after the first run; in particular the edge count does not grow. -/
theorem claim_C2_collection_idempotent (ps : Nat) (o : UserOracle) (u : String)
    (mp : Option Nat) (fuel : Nat) (force1 : Bool) (db0 db1 db2 : DB)
    (r1 r2 : CollectResult)
    (hsc0 : (!force1 && is_followings_scraped u db0) = false)
    (h1 : collect_user_and_followings ps o u mp force1 fuel db0 = some (db1, r1))
    (h2 : collect_user_and_followings ps o u mp true fuel db1 = some (db2, r2)) :
    db2.users = db1.users ∧ db2.followings = db1.followings
    ∧ db2.followings.length = db1.followings.length := by
  have hsc1 : (!true && is_followings_scraped u db1) = false := rfl
  cases hud : get_user_data o.userInfo with
  | none =>
    have e2 := collect_run_profile_fail ps o u mp true fuel db1 hsc1 hud
    have hdb2 : mark_followings_scraped u 0 0 (mp.getD MAX_PAGES_PER_USER) false
        (some ("Failed to retrieve user data for " ++ u)) db1 = db2 :=
      congrArg Prod.fst (Option.some.inj (e2.symm.trans h2))
    subst hdb2
    exact ⟨rfl, rfl, rfl⟩
  | some ud =>
    cases hph : o.followingsPhase with
    | raises msg =>
      have e1 := collect_run_raises ps o u mp force1 fuel db0 ud msg hsc0 hud hph
      have hdb1 : mark_followings_scraped u 0 0 (mp.getD MAX_PAGES_PER_USER) false
          (some ("Error during followings collection: " ++ msg)) (store_user ud db0) = db1 :=
        congrArg Prod.fst (Option.some.inj (e1.symm.trans h1))
      have e2 := collect_run_raises ps o u mp true fuel db1 ud msg hsc1 hud hph
      have hdb2 : mark_followings_scraped u 0 0 (mp.getD MAX_PAGES_PER_USER) false
          (some ("Error during followings collection: " ++ msg)) (store_user ud db1) = db2 :=
        congrArg Prod.fst (Option.some.inj (e2.symm.trans h2))
      subst hdb2
      subst hdb1
      exact ⟨upsertUser_idem (mkUserRow ud) db0.users, rfl, rfl⟩
    | responds pages =>
      cases hloop : get_all_user_followings (fun i => get_user_followings (pages i))
          (some (mp.getD MAX_PAGES_PER_USER)) fuel with
      | none =>
        have hnone := collect_run_loop_none ps o u mp force1 fuel db0 ud pages hsc0 hud
          hph hloop
        exact absurd (hnone.symm.trans h1) (by simp)
      | some pr =>
        obtain ⟨data, reqs⟩ := pr
        by_cases hemp : data = []
        · subst hemp
          have e1 := collect_run_zero ps o u mp force1 fuel db0 ud pages reqs hsc0 hud
            hph hloop
          have hdb1 : mark_followings_scraped u 0 0 (mp.getD MAX_PAGES_PER_USER) true none
              (store_user ud db0) = db1 :=
            congrArg Prod.fst (Option.some.inj (e1.symm.trans h1))
          have e2 := collect_run_zero ps o u mp true fuel db1 ud pages reqs hsc1 hud
            hph hloop
          have hdb2 : mark_followings_scraped u 0 0 (mp.getD MAX_PAGES_PER_USER) true none
              (store_user ud db1) = db2 :=
            congrArg Prod.fst (Option.some.inj (e2.symm.trans h2))
          subst hdb2
          subst hdb1
          exact ⟨upsertUser_idem (mkUserRow ud) db0.users, rfl, rfl⟩
        · have e1 := collect_run_stats ps o u mp force1 fuel db0 ud pages data reqs hsc0
            hud hph hloop hemp
          have hdb1 : mark_followings_scraped u data.length ((data.length + ps - 1) / ps)
              (mp.getD MAX_PAGES_PER_USER) true none
              (store_followings_batch_with_check u data (store_user ud db0)).1 = db1 :=
            congrArg Prod.fst (Option.some.inj (e1.symm.trans h1))
          have e2 := collect_run_stats ps o u mp true fuel db1 ud pages data reqs hsc1
            hud hph hloop hemp
          have hdb2 : mark_followings_scraped u data.length ((data.length + ps - 1) / ps)
              (mp.getD MAX_PAGES_PER_USER) true none
              (store_followings_batch_with_check u data (store_user ud db1)).1 = db2 :=
            congrArg Prod.fst (Option.some.inj (e2.symm.trans h2))
          have hcanonB : rowCanon (mkUserRow ud)
              (store_followings_batch_with_check u data (store_user ud db0)).1.users :=
            store_followings_batch_canon u data (store_user ud db0) (mkUserRow ud)
              (rowCanon_upsert_self (mkUserRow ud) db0.users)
          have hest := store_followings_batch_establish u data (store_user ud db0)
          have hup : upsertUser (mkUserRow ud)
              (store_followings_batch_with_check u data (store_user ud db0)).1.users =
              (store_followings_batch_with_check u data (store_user ud db0)).1.users :=
            rowCanon_noop _ _ hcanonB
          have husers1 : db1.users =
              (store_followings_batch_with_check u data (store_user ud db0)).1.users := by
            rw [← hdb1]
            rfl
          have hfoll1 : db1.followings =
              (store_followings_batch_with_check u data (store_user ud db0)).1.followings := by
            rw [← hdb1]
            rfl
          have hnoop : (store_followings_batch_with_check u data (store_user ud db1)).1 =
              store_user ud db1 := by
            apply store_followings_batch_noop
            · intro t ht htne
              rw [show (store_user ud db1).users = upsertUser (mkUserRow ud) db1.users
                from rfl]
              rw [husers1, hup]
              exact (hest t ht htne).1
            · intro t ht htne
              rw [store_user_followings, hfoll1]
              exact (hest t ht htne).2
          have g1 : db2.users = db1.users := by
            rw [← hdb2]
            rw [show (mark_followings_scraped u data.length ((data.length + ps - 1) / ps)
                (mp.getD MAX_PAGES_PER_USER) true none
                (store_followings_batch_with_check u data (store_user ud db1)).1).users =
              (store_followings_batch_with_check u data (store_user ud db1)).1.users
              from rfl]
            rw [hnoop]
            rw [show (store_user ud db1).users = upsertUser (mkUserRow ud) db1.users
              from rfl]
            rw [husers1]
            exact hup
          have g2 : db2.followings = db1.followings := by
            rw [← hdb2]
            rw [show (mark_followings_scraped u data.length ((data.length + ps - 1) / ps)
                (mp.getD MAX_PAGES_PER_USER) true none
                (store_followings_batch_with_check u data (store_user ud db1)).1).followings =
              (store_followings_batch_with_check u data (store_user ud db1)).1.followings
              from rfl]
            rw [hnoop]
            exact store_user_followings ud db1
          exact ⟨g1, g2, congrArg (fun l => l.length) g2⟩

def c2check : Bool :=
  match collect_user_and_followings 2 c9oracle "Alice" none true 4 emptyDB with
  | some p1 =>
    match collect_user_and_followings 2 c9oracle "Alice" none true 4 p1.1 with
    | some p2 => (p2.1.users == p1.1.users) && (p2.1.followings == p1.1.followings)
        && (p2.1.followings.length == p1.1.followings.length)
    | none => false
  | none => false

theorem claim_C2_witness : c2check = true := by
  cases hrun1 : collect_user_and_followings 2 c9oracle "Alice" none true 4 emptyDB with
  | none => exact absurd hrun1 (by decide)
  | some p1 =>
    obtain ⟨db1, r1⟩ := p1
    have e2 := collect_run_stats 2 c9oracle "Alice" none true 4 db1 sampleUserD c9pages
      c9data 2 rfl (by decide) rfl (by decide) (by decide)
    have h := claim_C2_collection_idempotent 2 c9oracle "Alice" none 4 true emptyDB db1
      _ r1 _ rfl hrun1 e2
    unfold c2check
    rw [hrun1]
    simp only []
    rw [e2]
    simp only [h.1, h.2.1, h.2.2]
    simp
